import Mathlib

/-!
Verification of the seq2pipe LLM coding-agent controller.

This file gives a shallow embedding, in Lean 4, of the controller core of the
repository:

* the tool-call extractor `_parse_text_tool_calls` (src/code_agent.py),
* the tool executor `_exec_tool` and `pip_install` (src/code_agent.py),
* the missing-module detector `_detect_missing_module` (src/code_agent.py),
* the streaming response consumer `call_ollama` (src/qiime2_agent.py),
* the tool-calling agent loop `run_coding_agent` (src/code_agent.py).

Python machine-level services are modelled explicitly:

* `json.loads` is modelled by `parseJson` (a fuel-based recursive-descent
  parser for RFC-8259 JSON with Python duplicate-key overwrite semantics;
  lone-surrogate escapes, number underscores &c. lie outside the model),
* the regular expressions used by the source are modelled by dedicated
  scanners whose search order mirrors `re.search` / `re.findall` /
  `re.finditer` leftmost, non-overlapping semantics,
* the filesystem and child processes are modelled by explicit oracles
  (`ExecEnv`, `StepEnv`) since their behaviour is external to the program.

All definitions are executable (fuel-based recursion, no well-founded
fixpoints), so concrete witnesses evaluate by `rfl` / `decide`.
-/

/-! ## Basic character/string utilities (models of Python `str` helpers) -/

/-- A single-quote character (used to build message literals). -/
def sqc : Char := '\''

/-- A backtick character (used to recognise Markdown code fences). -/
def btick : Char := List.headD "`".data ' '

/-- `begMatch needle hay`: does `hay` start with `needle`? -/
def begMatch : List Char → List Char → Bool
  | [], _ => true
  | _ :: _, [] => false
  | a :: n, b :: h => a == b && begMatch n h

/-- `hasSeg needle hay`: does `needle` occur contiguously inside `hay`?
Models the Python `in` operator on strings. -/
def hasSeg (needle : List Char) : List Char → Bool
  | [] => begMatch needle []
  | b :: h => begMatch needle (b :: h) || hasSeg needle h

/-- Does `hay` end with `suffix`? Models Python `str.endswith`. -/
def endsWithSeg (suffix hay : List Char) : Bool :=
  begMatch suffix.reverse hay.reverse

/-- ASCII whitespace stripped by Python `str.strip()`: space (32) and the
control range 9-13 (tab, LF, VT, FF, CR). -/
def isPySpace (c : Char) : Bool :=
  c.toNat == 32 || (9 ≤ c.toNat && c.toNat ≤ 13)

/-- Whitespace matched by the regex class `\s` on ASCII text. -/
def isReWs (c : Char) : Bool := isPySpace c

/-- Whitespace skipped by `json.loads`: exactly space (32), tab (9),
LF (10) and CR (13). -/
def isJsonWs (c : Char) : Bool :=
  c.toNat == 32 || c.toNat == 9 || c.toNat == 10 || c.toNat == 13

/-- Model of Python `str.strip()` on ASCII whitespace. -/
def pyStrip (cs : List Char) : List Char :=
  ((cs.dropWhile isPySpace).reverse.dropWhile isPySpace).reverse

/-- Concatenate a list of lists. -/
def catLists {α : Type} : List (List α) → List α
  | [] => []
  | x :: xs => x ++ catLists xs

/-- `joinSep sep parts` models Python `sep.join(parts)`. -/
def joinSep (sep : List Char) : List (List Char) → List Char
  | [] => []
  | [x] => x
  | x :: y :: rest => x ++ sep ++ joinSep sep (y :: rest)

/-- Model of Python `str.splitlines()` restricted to the line breaks
`\n`, `\r` and `\r\n` (the exotic Unicode breaks are outside the model). -/
def pySplitlinesA (cur : List Char) : List Char → List (List Char)
  | [] => if cur.isEmpty then [] else [cur.reverse]
  | '\r' :: '\n' :: rest => cur.reverse :: pySplitlinesA [] rest
  | '\r' :: rest => cur.reverse :: pySplitlinesA [] rest
  | '\n' :: rest => cur.reverse :: pySplitlinesA [] rest
  | c :: rest => pySplitlinesA (c :: cur) rest

/-- Model of Python `str.splitlines()`. -/
def pySplitlines (cs : List Char) : List (List Char) := pySplitlinesA [] cs

/-- Basename of a path: the part after the last `/`.
Models `pathlib.Path(p).name` for ordinary paths. -/
def baseName (p : List Char) : List Char :=
  (p.reverse.takeWhile (fun c => c != '/')).reverse

/-- Lexicographic comparison on character lists (by code point),
modelling Python string `<=` used by `sorted`. -/
def leChars : List Char → List Char → Bool
  | [], _ => true
  | _ :: _, [] => false
  | a :: x, b :: y => if a == b then leChars x y else a.val ≤ b.val

/-- Insertion into a sorted list of strings. -/
def insSorted (s : String) : List String → List String
  | [] => [s]
  | t :: rest =>
    if leChars s.data t.data then s :: t :: rest else t :: insSorted s rest

/-- Insertion sort of strings, modelling Python `sorted` on paths. -/
def sortStrs : List String → List String
  | [] => []
  | s :: rest => insSorted s (sortStrs rest)

/-! ## JSON values and a model of Python `json.loads` -/

/-- JSON values. Numbers are represented exactly as rationals, matching
Python value equality for the integer/decimal literals relevant here.
Objects are stored as key/value lists with unique keys (the parser applies
the `dict` overwrite rule for duplicate keys). -/
inductive Json where
  | null : Json
  | bool : Bool → Json
  | num : Rat → Json
  | str : String → Json
  | arr : List Json → Json
  | obj : List (String × Json) → Json

/-- Key lookup inside a parsed object list (keys are unique after parsing).
Models `dict.get(k)`. -/
def lookupKV (kvs : List (String × Json)) (k : String) : Option Json :=
  match kvs with
  | [] => none
  | (k', v) :: rest => if k' == k then some v else lookupKV rest k

/-- `item.get(k)` on a JSON value: key lookup when the value is an object. -/
def getJ (j : Json) (k : String) : Option Json :=
  match j with
  | .obj kvs => lookupKV kvs k
  | _ => none

/-- `k in item` on a JSON object. -/
def hasKeyJ (j : Json) (k : String) : Bool := (getJ j k).isSome

/-- `item.get(k, d)`. -/
def getJD (j : Json) (k : String) (d : Json) : Json := (getJ j k).getD d

/-- Python truthiness of a JSON value (`bool(v)`). -/
def pyTruthy : Json → Bool
  | .null => false
  | .bool b => b
  | .num q => q != 0
  | .str s => s.data != []
  | .arr xs => !xs.isEmpty
  | .obj kvs => !kvs.isEmpty

/-- Insert a key/value pair with Python `dict` semantics: an existing key
keeps its position and is overwritten, a new key is appended. -/
def insertKV : List (String × Json) → String → Json → List (String × Json)
  | [], k, v => [(k, v)]
  | (k', v') :: rest, k, v =>
    if k' == k then (k', v) :: rest else (k', v') :: insertKV rest k v

/-- Hex digit value, by code point: digits 48-57, lower-case letters
97-102, upper-case letters 65-70. -/
def hexVal (c : Char) : Option Nat :=
  let n := c.toNat
  if 48 ≤ n && n ≤ 57 then some (n - 48)
  else if 97 ≤ n && n ≤ 102 then some (n - 87)
  else if 65 ≤ n && n ≤ 70 then some (n - 55)
  else none

/-- Parse exactly four hex digits. -/
def parseHex4 : List Char → Option (Nat × List Char)
  | c1 :: c2 :: c3 :: c4 :: rest =>
    match hexVal c1, hexVal c2, hexVal c3, hexVal c4 with
    | some a, some b, some c, some d => some (((a * 16 + b) * 16 + c) * 16 + d, rest)
    | _, _, _, _ => none
  | _ => none

/-- Is `n` a valid Unicode scalar value? -/
def validScalar (n : Nat) : Bool :=
  n < 0xd800 || (0xe000 ≤ n && n < 0x110000)

/-- Parse the body of a JSON string after the opening quote; returns the
decoded characters and the remaining input after the closing quote.
Surrogate pairs in `\uXXXX` escapes are combined; lone surrogates
(which CPython tolerates) are outside the model and fail. -/
def parseStrBody : Nat → List Char → Option (List Char × List Char)
  | 0, _ => none
  | _ + 1, [] => none
  | fuel + 1, c :: rest =>
    if c == '"' then some ([], rest)
    else if c == '\\' then
      match rest with
      | [] => none
      | e :: r2 =>
        if e == 'u' then
          match parseHex4 r2 with
          | none => none
          | some (n, r3) =>
            if 0xd800 ≤ n && n < 0xdc00 then
              match r3 with
              | '\\' :: 'u' :: r4 =>
                match parseHex4 r4 with
                | some (m, r5) =>
                  if 0xdc00 ≤ m && m < 0xe000 then
                    let code := 0x10000 + (n - 0xd800) * 0x400 + (m - 0xdc00)
                    (parseStrBody fuel r5).map
                      (fun p => (Char.ofNat code :: p.1, p.2))
                  else none
                | none => none
              | _ => none
            else if validScalar n then
              (parseStrBody fuel r3).map (fun p => (Char.ofNat n :: p.1, p.2))
            else none
        else
          let dec : Option Char :=
            if e == '"' then some '"'
            else if e == '\\' then some '\\'
            else if e == '/' then some '/'
            else if e == 'b' then some '\x08'
            else if e == 'f' then some '\x0c'
            else if e == 'n' then some '\n'
            else if e == 'r' then some '\r'
            else if e == 't' then some '\t'
            else none
          match dec with
          | some d => (parseStrBody fuel r2).map (fun p => (d :: p.1, p.2))
          | none => none
    else if c.toNat < 0x20 then none
    else (parseStrBody fuel rest).map (fun p => (c :: p.1, p.2))

/-- Digit test / value. -/
def isDigitCh (c : Char) : Bool := '0' ≤ c && c ≤ '9'

/-- Decimal value of a digit run. -/
def digitsToNat : List Char → Nat
  | ds => ds.foldl (fun a c => a * 10 + (c.toNat - '0'.toNat)) 0

/-- Parse a JSON number (grammar `-?(0|[1-9][0-9]*)(\.[0-9]+)?([eE][+-]?[0-9]+)?`)
into an exact rational. -/
def parseNum (cs : List Char) : Option (Rat × List Char) :=
  let (neg, cs1) :=
    match cs with
    | '-' :: rest => (true, rest)
    | _ => (false, cs)
  match cs1 with
  | [] => none
  | c :: _ =>
    if !isDigitCh c then none
    else
      let intDigits := cs1.takeWhile isDigitCh
      -- leading zeros are invalid JSON: "0" only, or first digit nonzero
      if intDigits.length > 1 && intDigits.headD '0' == '0' then none
      else
        let cs2 := cs1.drop intDigits.length
        let (fracDigits, cs3) :=
          match cs2 with
          | '.' :: r =>
            let f := r.takeWhile isDigitCh
            (f, r.drop f.length)
          | _ => ([], cs2)
        match cs2, fracDigits with
        | '.' :: _, [] => none
        | _, _ =>
          let (expVal, cs4) :=
            match cs3 with
            | e :: r =>
              if e == 'e' || e == 'E' then
                let (esign, r2) : Int × List Char :=
                  if begMatch "+".data r then (1, r.drop 1)
                  else if begMatch "-".data r then (-1, r.drop 1)
                  else (1, r)
                let ed := r2.takeWhile isDigitCh
                if ed.isEmpty then (none, cs3)
                else (some (esign * (digitsToNat ed : Int)), r2.drop ed.length)
              else (none, cs3)
            | [] => (none, cs3)
          let mantissa : Int :=
            (digitsToNat (intDigits ++ fracDigits) : Int) * (if neg then -1 else 1)
          let exp10 : Int := (expVal.getD 0) - (fracDigits.length : Int)
          some ((mantissa : Rat) * (10 : Rat) ^ exp10, cs4)

mutual

/-- Parse one JSON value (leading whitespace allowed); returns the value and
the remaining input. Fuel-based so that the kernel can evaluate it. -/
def parseVal : Nat → List Char → Option (Json × List Char)
  | 0, _ => none
  | fuel + 1, cs =>
    let cs := cs.dropWhile isJsonWs
    match cs with
    | [] => none
    | c :: rest =>
      if c == 'n' then
        match cs with
        | 'n' :: 'u' :: 'l' :: 'l' :: r => some (.null, r)
        | _ => none
      else if c == 't' then
        match cs with
        | 't' :: 'r' :: 'u' :: 'e' :: r => some (.bool true, r)
        | _ => none
      else if c == 'f' then
        match cs with
        | 'f' :: 'a' :: 'l' :: 's' :: 'e' :: r => some (.bool false, r)
        | _ => none
      else if c == '"' then
        match parseStrBody (rest.length + 1) rest with
        | some (s, r) => some (.str (String.mk s), r)
        | none => none
      else if c == '[' then
        let r := rest.dropWhile isJsonWs
        match r with
        | ']' :: r2 => some (.arr [], r2)
        | _ =>
          match parseArrItems fuel rest [] with
          | some (xs, r2) => some (.arr xs, r2)
          | none => none
      else if c == '{' then
        let r := rest.dropWhile isJsonWs
        match r with
        | '}' :: r2 => some (.obj [], r2)
        | _ =>
          match parseObjItems fuel rest [] with
          | some (kvs, r2) => some (.obj kvs, r2)
          | none => none
      else
        match parseNum cs with
        | some (q, r) => some (.num q, r)
        | none => none

/-- Parse the comma-separated items of a non-empty array, after `[`. -/
def parseArrItems : Nat → List Char → List Json → Option (List Json × List Char)
  | 0, _, _ => none
  | fuel + 1, cs, acc =>
    match parseVal fuel cs with
    | none => none
    | some (v, rest) =>
      let rest := rest.dropWhile isJsonWs
      match rest with
      | ',' :: r2 => parseArrItems fuel r2 (v :: acc)
      | ']' :: r2 => some ((v :: acc).reverse, r2)
      | _ => none

/-- Parse the comma-separated members of a non-empty object, after `{`. -/
def parseObjItems : Nat → List Char → List (String × Json) →
    Option (List (String × Json) × List Char)
  | 0, _, _ => none
  | fuel + 1, cs, acc =>
    let cs := cs.dropWhile isJsonWs
    match cs with
    | '"' :: rest =>
      match parseStrBody (rest.length + 1) rest with
      | none => none
      | some (k, r1) =>
        let r1 := r1.dropWhile isJsonWs
        match r1 with
        | ':' :: r2 =>
          match parseVal fuel r2 with
          | none => none
          | some (v, r3) =>
            let r3 := r3.dropWhile isJsonWs
            let acc := insertKV acc (String.mk k) v
            match r3 with
            | ',' :: r4 => parseObjItems fuel r4 acc
            | '}' :: r4 => some (acc, r4)
            | _ => none
        | _ => none
    | _ => none

end

/-- Model of Python `json.loads`: parse a complete JSON document, rejecting
trailing non-whitespace. -/
def parseJson (cs : List Char) : Option Json :=
  match parseVal (cs.length + 1) cs with
  | some (v, rest) => if (rest.dropWhile isJsonWs).isEmpty then some v else none
  | none => none

/-- Rough rendering of a rational for `str()` (only its shape matters here). -/
def ratStr (q : Rat) : List Char :=
  if q.den == 1 then (toString q.num).data
  else (toString q.num).data ++ "/".data ++ (toString q.den).data

/-- Model of Python `repr()` on JSON-shaped values (single-quoted strings,
no escaping: enough for the `.endswith` checks it feeds). -/
def pyReprJ : Nat → Json → List Char
  | _, .null => "None".data
  | _, .bool true => "True".data
  | _, .bool false => "False".data
  | _, .num q => ratStr q
  | _, .str s => sqc :: s.data ++ [sqc]
  | 0, _ => []
  | fuel + 1, .arr xs =>
    "[".data ++ joinSep ", ".data (xs.map (pyReprJ fuel)) ++ "]".data
  | fuel + 1, .obj kvs =>
    "\x7b".data ++
      joinSep ", ".data
        (kvs.map (fun kv => sqc :: kv.1.data ++ [sqc] ++ ": ".data ++ pyReprJ fuel kv.2)) ++
      "\x7d".data

/-- Model of Python `str()` on a JSON value (container nesting beyond the
fixed fuel bound is outside the model; only the shape of the result is ever
used, by an `.endswith` check). -/
def pyStr (j : Json) : List Char :=
  match j with
  | .str s => s.data
  | j => pyReprJ 1000 j

/-- Model of Python `int(x)` on a JSON value: `some` the converted integer,
`none` when `int()` raises (`TypeError`/`ValueError`).
`int` of a string allows surrounding whitespace, an optional sign and
decimal digits (digit-group underscores are outside the model);
`int` of a float truncates toward zero. -/
def pyInt (j : Json) : Option Int :=
  match j with
  | .bool b => some (if b then 1 else 0)
  | .num q => some (if q < 0 then -((-q).floor) else q.floor)
  | .str s =>
    let cs := pyStrip s.data
    let (neg, ds) :=
      match cs with
      | '-' :: r => (true, r)
      | '+' :: r => (false, r)
      | _ => (false, cs)
    if ds.isEmpty || !(ds.all isDigitCh) then none
    else some ((if neg then -1 else 1) * (digitsToNat ds : Int))
  | _ => none

/-! ## Fenced code blocks

Model of `re.findall(r'```(?:json)?\s*([\s\S]*?)```', content)`:
leftmost non-overlapping matches; the optional `json` tag and the greedy
`\s*` are consumed before the lazy capture, which stops at the nearest
closing fence. -/

/-- The three-backtick fence. -/
def fenceTok : List Char := "```".data

/-- Skip to just after the first occurrence of the fence; `none` when the
input contains no fence. -/
def dropToFence : List Char → Option (List Char)
  | [] => none
  | c :: t =>
    if begMatch fenceTok (c :: t) then some (t.drop 2) else dropToFence t

/-- Capture lazily up to the nearest fence; returns the capture and the
input after the closing fence. -/
def takeToFence : List Char → Option (List Char × List Char)
  | [] => none
  | c :: t =>
    if begMatch fenceTok (c :: t) then some ([], t.drop 2)
    else
      match takeToFence t with
      | some (cap, r) => some (c :: cap, r)
      | none => none

/-- All fenced-block captures, in order. -/
def fencedBlocksA : Nat → List Char → List (List Char)
  | 0, _ => []
  | fuel + 1, cs =>
    match dropToFence cs with
    | none => []
    | some afterOpen =>
      let afterLang :=
        if begMatch "json".data afterOpen then afterOpen.drop 4 else afterOpen
      let afterWs := afterLang.dropWhile isReWs
      match takeToFence afterWs with
      | none => []
      | some (cap, rest) => cap :: fencedBlocksA fuel rest

/-- Fenced blocks of a response text. -/
def fencedBlocks (cs : List Char) : List (List Char) := fencedBlocksA cs.length cs

/-! ## The Call Extractor: `_parse_text_tool_calls` (src/code_agent.py) -/

/-- A parsed tool call `{"function": {"name": ..., "arguments": ...}}`.
The `name` is kept as a raw JSON value since the source does not require it
to be a string. -/
structure PCall where
  name : Json
  args : Json

/-- `tool_name == lit` where `tool_name` may be any JSON value: Python
equality of a value against a string literal. -/
def jsonIsStr (j : Json) (lit : String) : Bool :=
  match j with
  | .str s => s == lit
  | _ => false

/-- `item.get("arguments") or item.get("parameters") or {}`. -/
def argsOfItem (item : Json) : Json :=
  match getJ item "arguments" with
  | some a =>
    if pyTruthy a then a
    else
      match getJ item "parameters" with
      | some p => if pyTruthy p then p else Json.obj []
      | none => Json.obj []
  | none =>
    match getJ item "parameters" with
    | some p => if pyTruthy p then p else Json.obj []
    | none => Json.obj []

/-- `obj if isinstance(obj, list) else [obj]`. -/
def asItems (j : Json) : List Json :=
  match j with
  | .arr xs => xs
  | j => [j]

/-- Pattern 1, per item: a dict with a `name` key and an `arguments` or
`parameters` key becomes a call. -/
def itemToCall1 (item : Json) : Option PCall :=
  match item with
  | .obj _ =>
    if hasKeyJ item "name" && (hasKeyJ item "arguments" || hasKeyJ item "parameters")
    then some ⟨getJD item "name" Json.null, argsOfItem item⟩
    else none
  | _ => none

/-- Pattern 1, per fenced block. -/
def blockCalls1 (b : List Char) : List PCall :=
  match parseJson (pyStrip b) with
  | none => []
  | some j => (asItems j).filterMap itemToCall1

/-- Pattern 1: calls recovered from fenced code blocks. -/
def pattern1Calls (content : List Char) : List PCall :=
  catLists ((fencedBlocks content).map blockCalls1)

/-- Pattern 2, per item: any dict with a `name` key becomes a call. -/
def itemToCall2 (item : Json) : Option PCall :=
  match item with
  | .obj _ =>
    if hasKeyJ item "name" then some ⟨getJD item "name" Json.null, argsOfItem item⟩
    else none
  | _ => none

/-- Pattern 2: the whole trimmed response parsed as JSON. -/
def pattern2Calls (content : List Char) : List PCall :=
  match parseJson (pyStrip content) with
  | none => []
  | some j => (asItems j).filterMap itemToCall2

/-! ## Pattern 3: regex scan for embedded JSON objects

Model of `re.finditer(r'\{[^{}]*"name"\s*:\s*"([^"]+)"[^{}]*\}', content)`.
A candidate match starts at a `{`, spans the maximal brace-free run, and
must be closed by `}`; it matches when the run contains the literal
`"name"` followed by `\s*:\s*` and a non-empty quoted string. Only the
whole match (`group(0)`) is used by the source. -/

/-- Does the (brace-free) body match `"name"\s*:\s*"([^"]+)"` at its head? -/
def namePatAt (cs : List Char) : Bool :=
  if begMatch "\"name\"".data cs then
    let r1 := (cs.drop 6).dropWhile isReWs
    match r1 with
    | ':' :: r2 =>
      let r3 := r2.dropWhile isReWs
      match r3 with
      | '"' :: r4 =>
        let cap := r4.takeWhile (fun c => c != '"')
        !cap.isEmpty && !(r4.drop cap.length).isEmpty
      | _ => false
    | _ => false
  else false

/-- Does the body contain the `"name"` pattern anywhere? -/
def hasNamePat : List Char → Bool
  | [] => false
  | c :: t => namePatAt (c :: t) || hasNamePat t

/-- Not a brace. -/
def notBrace (c : Char) : Bool := c != '\x7b' && c != '\x7d'

/-- All `group(0)` spans of the pattern-3 regex, leftmost non-overlapping. -/
def p3ScanA : Nat → List Char → List (List Char)
  | 0, _ => []
  | _ + 1, [] => []
  | fuel + 1, c :: t =>
    if c == '\x7b' then
      let run := t.takeWhile notBrace
      match t.drop run.length with
      | d :: rest =>
        if d == '\x7d' && hasNamePat run then
          (c :: (run ++ [d])) :: p3ScanA fuel rest
        else p3ScanA fuel t
      | [] => p3ScanA fuel t
    else p3ScanA fuel t

/-- Pattern 3, per span: parse the matched object, require a `name` key, and
normalise string-typed `arguments` by a nested `json.loads` (defaulting to
`{}` on failure). -/
def spanToCall3 (sp : List Char) : Option PCall :=
  match parseJson sp with
  | none => none
  | some j =>
    if hasKeyJ j "name" then
      let args := argsOfItem j
      let args :=
        match args with
        | .str s =>
          match parseJson s.data with
          | some a => a
          | none => Json.obj []
        | a => a
      some ⟨getJD j "name" Json.null, args⟩
    else none

/-- Pattern 3: calls recovered from embedded JSON objects. -/
def pattern3Calls (content : List Char) : List PCall :=
  (p3ScanA content.length content).filterMap spanToCall3

/-! ## Pattern 4a/4b: heuristic inference for objects without a `name` -/

/-- The shared heuristic: a dict without `name` is interpreted as
`write_file` (has `path` and `content`), `run_python` (has a `path` ending
in `.py`) or `list_files` (has `directory`). -/
def heur4 (j : Json) : Option PCall :=
  match j with
  | .obj _ =>
    if hasKeyJ j "name" then none
    else if hasKeyJ j "path" && hasKeyJ j "content" then
      some ⟨Json.str "write_file", j⟩
    else if hasKeyJ j "path" &&
        endsWithSeg ".py".data (pyStr (getJD j "path" (Json.str ""))) then
      some ⟨Json.str "run_python", j⟩
    else if hasKeyJ j "directory" then
      some ⟨Json.str "list_files", j⟩
    else none
  | _ => none

/-- Pattern 4a: the heuristic applied to the whole trimmed response. -/
def pattern4aCalls (content : List Char) : List PCall :=
  match (parseJson (pyStrip content)).bind heur4 with
  | some c => [c]
  | none => []

/-- Pattern 4b: the heuristic applied to fenced blocks, first hit wins. -/
def pattern4bScan : List (List Char) → List PCall
  | [] => []
  | b :: rest =>
    match (parseJson (pyStrip b)).bind heur4 with
    | some c => [c]
    | none => pattern4bScan rest

/-- Pattern 4b over the response text. -/
def pattern4bCalls (content : List Char) : List PCall :=
  pattern4bScan (fencedBlocks content)

/-! ## Lenient last-resort extraction (the final pattern)

Models the field-level regexes `"name"\s*:\s*"([^"]+)"` (and the same for
`path` / `directory` / `package`), `re.search` first-match semantics, and
the character-by-character unescaping of a `content` field. -/

/-- At the head of `cs`, match `"key"\s*:\s*"([^"]+)"` and return the capture. -/
def fieldPatAt (key : List Char) (cs : List Char) : Option (List Char) :=
  let pat := '"' :: key ++ ['"']
  if begMatch pat cs then
    let r1 := (cs.drop pat.length).dropWhile isReWs
    match r1 with
    | ':' :: r2 =>
      let r3 := r2.dropWhile isReWs
      match r3 with
      | '"' :: r4 =>
        let cap := r4.takeWhile (fun c => c != '"')
        if !cap.isEmpty && !(r4.drop cap.length).isEmpty then some cap else none
      | _ => none
    | _ => none
  else none

/-- `re.search` of the field pattern: first match anywhere in the text. -/
def searchField (key : List Char) : List Char → Option (List Char)
  | [] => none
  | c :: t =>
    match fieldPatAt key (c :: t) with
    | some cap => some cap
    | none => searchField key t

/-- At the head of `cs`, match `"content"\s*:\s*"` and return the rest
(after the opening quote of the value). -/
def contentStartAt (cs : List Char) : Option (List Char) :=
  if begMatch "\"content\"".data cs then
    let r1 := (cs.drop 9).dropWhile isReWs
    match r1 with
    | ':' :: r2 =>
      let r3 := r2.dropWhile isReWs
      match r3 with
      | '"' :: r4 => some r4
      | _ => none
    | _ => none
  else none

/-- `re.search(r'"content"\s*:\s*"', content)`: rest after the first match. -/
def searchContentStart : List Char → Option (List Char)
  | [] => none
  | c :: t =>
    match contentStartAt (c :: t) with
    | some r => some r
    | none => searchContentStart t

/-- The source's manual unescape scan over the raw tail of a `content`
value: handles `\n`, `\t`, `\"`, `\\`, keeps unknown escapes verbatim, and
stops at the first unescaped quote (or at the end of input). -/
def unescapeScan : List Char → List Char
  | [] => []
  | '\\' :: n :: rest =>
    (if n == 'n' then ['\n']
     else if n == 't' then ['\t']
     else if n == '"' then ['"']
     else if n == '\\' then ['\\']
     else ['\\', n]) ++ unescapeScan rest
  | '"' :: _ => []
  | c :: rest => c :: unescapeScan rest

/-- The recognised tool names. -/
def knownTools : List String :=
  ["read_file", "write_file", "run_python", "list_files", "install_package"]

/-- The lenient last-resort pattern. -/
def pattern4LenCalls (content : List Char) : List PCall :=
  match searchField "name".data content with
  | none => []
  | some nm =>
    let name := String.mk nm
    if knownTools.contains name then
      let args : List (String × Json) := []
      let args :=
        match searchField "path".data content with
        | some p => insertKV args "path" (Json.str (String.mk p))
        | none => args
      let args :=
        match searchField "directory".data content with
        | some d => insertKV args "directory" (Json.str (String.mk d))
        | none => args
      let args :=
        match searchField "package".data content with
        | some p => insertKV args "package" (Json.str (String.mk p))
        | none => args
      let args :=
        if name == "write_file" && hasSeg "\"content\"".data content then
          match searchContentStart content with
          | some raw =>
            let fileContent := unescapeScan raw
            if fileContent.length > 10 then
              insertKV args "content" (Json.str (String.mk fileContent))
            else args
          | none => args
        else args
      if !args.isEmpty || name == "list_files" then
        [⟨Json.str name, Json.obj args⟩]
      else []
    else []

/-- Model of `_parse_text_tool_calls` (src/code_agent.py, lines 1117-1269):
the ordered fallback chain of text-parsing strategies. -/
def parseTextToolCalls (content : List Char) : List PCall :=
  if content.isEmpty then []
  else if !(pattern1Calls content).isEmpty then pattern1Calls content
  else if !(pattern2Calls content).isEmpty then pattern2Calls content
  else if !(pattern3Calls content).isEmpty then pattern3Calls content
  else if !(pattern4aCalls content).isEmpty then pattern4aCalls content
  else if !(pattern4bCalls content).isEmpty then pattern4bCalls content
  else pattern4LenCalls content

/-- The Call Extractor as the Agent Loop uses it (src/code_agent.py, lines
1539-1555): the service's native structured tool calls when present,
otherwise the text-parsing fallback. -/
def extractCalls (content : List Char) (native : List PCall) : List PCall :=
  if !native.isEmpty then native else parseTextToolCalls content


/-! ## The Stream Consumer: `call_ollama` (src/qiime2_agent.py, lines 2560-2659)

The streaming loop is modelled over the list of decoded JSON chunks the
service delivers. Each chunk may carry a `thinking` fragment, tool-call
fragments, a `content` fragment and a `done` flag. The two safety limits
(`_max_content_chars = 20000` and the tail-repetition detector) are
transcribed verbatim; the cause of termination records which `break`
(and which printed truncation notice) fired. -/

/-- One decoded stream chunk. -/
structure Chunk where
  thinking : List Char
  toolCalls : List PCall
  content : List Char
  done : Bool

/-- Why consumption stopped. `repetition` and `sizeCap` correspond to the
two truncation notices the source prints before breaking. -/
inductive StopCause where
  | repetition : StopCause
  | sizeCap : StopCause
  | doneFlag : StopCause
  | exhausted : StopCause
deriving DecidableEq

/-- The assembled response. -/
structure StreamResult where
  content : List Char
  toolCalls : List PCall
  thinking : List Char
  stop : StopCause

/-- Split into consecutive runs of `n` characters (the final run may be
shorter), modelling `[tail[i:i+n] for i in range(0, len(tail), n)]`. -/
def chunksOfA (n : Nat) : Nat → List Char → List (List Char)
  | 0, _ => []
  | fuel + 1, cs =>
    if cs.isEmpty then [] else cs.take n :: chunksOfA n fuel (cs.drop n)

/-- `chunksOf n cs`. -/
def chunksOf (n : Nat) (cs : List Char) : List (List Char) :=
  chunksOfA n cs.length cs

/-- `len(chunks) >= 4 and len(set(chunks[-4:])) == 1`. -/
def lastFourSame (l : List (List Char)) : Bool :=
  match l.drop (l.length - 4) with
  | [a, b, c, d] => a == b && b == c && c == d
  | _ => false

/-- The repetition detector applied to assembled content of length > 2000:
the last 500 characters are cut into 50-character runs and the last four
runs must be identical. -/
def repDetected (full : List Char) : Bool :=
  lastFourSame (chunksOf 50 (full.drop (full.length - 500)))

/-- The marker spliced over the repeated tail. -/
def truncMarker : List Char := "\n[TRUNCATED: repetition detected]".data

/-- The streaming consumption loop of `call_ollama`. -/
def consumeChunks : List Chunk → List Char → List PCall → List Char → StreamResult
  | [], full, tcs, th => ⟨full, tcs, th, .exhausted⟩
  | c :: rest, full, tcs, th =>
    if c.thinking ≠ [] then
      -- a `thinking` fragment short-circuits the rest of the iteration
      consumeChunks rest full tcs (th ++ c.thinking)
    else
      let tcs := tcs ++ c.toolCalls
      if c.content ≠ [] then
        let full := full ++ c.content
        if 2000 < full.length ∧ repDetected full = true then
          ⟨full.take (full.length - 500) ++ truncMarker, tcs, th, .repetition⟩
        else if 20000 < full.length then
          ⟨full, tcs, th, .sizeCap⟩
        else if c.done then ⟨full, tcs, th, .doneFlag⟩
        else consumeChunks rest full tcs th
      else if c.done then ⟨full, tcs, th, .doneFlag⟩
      else consumeChunks rest full tcs th

/-- `call_ollama`, from the stream of decoded chunks onward. -/
def callOllamaStream (chunks : List Chunk) : StreamResult :=
  consumeChunks chunks [] [] []

/-! ## `_detect_missing_module` and `pip_install` (src/code_agent.py) -/

/-- The literal prefix of the regex `No module named '([^']+)'`. -/
def noModLit : List Char := "No module named ".data ++ [sqc]

/-- Match the regex at the head of the input and return the capture: the
literal prefix, a non-empty quote-free run, and a closing quote. -/
def noModAt (cs : List Char) : Option (List Char) :=
  if begMatch noModLit cs then
    let rest := cs.drop 17
    let cap := rest.takeWhile (fun c => c != sqc)
    if !cap.isEmpty && !(rest.drop cap.length).isEmpty then some cap else none
  else none

/-- `re.search`: the leftmost match of the regex. -/
def findNoMod : List Char → Option (List Char)
  | [] => none
  | c :: t =>
    match noModAt (c :: t) with
    | some cap => some cap
    | none => findNoMod t

/-- The fixed module-name → pip-name table `_PIP_NAME_MAP`. -/
def pipNameMap (m : String) : String :=
  if m == "sklearn" then "scikit-learn"
  else if m == "skbio" then "scikit-bio"
  else if m == "Bio" then "biopython"
  else if m == "cv2" then "opencv-python"
  else if m == "PIL" then "Pillow"
  else m

/-- Model of `_detect_missing_module` (src/code_agent.py, lines 331-337). -/
def detectMissingModule (stderr : String) : Option String :=
  match findNoMod stderr.data with
  | some cap => some (pipNameMap (String.mk (cap.takeWhile (fun c => c != '.'))))
  | none => none

/-! ## The Tool Executor: `_exec_tool` and `pip_install` (src/code_agent.py)

The filesystem, the child process and the pip subprocess are external, so
their behaviour at one invocation is supplied by an oracle record
`ExecEnv`. The control flow, message formats and exception structure of
`_exec_tool` (lines 981-1114) are transcribed from the source. The working
directories (`output_dir`, `figure_dir`) are assumed valid, as supplied by
the agent loop. -/

/-- Outcome of `subprocess.run` on the script, as `_exec_tool` observes it. -/
inductive RunOutcome where
  | timeout : RunOutcome
  | launchErr : List Char → RunOutcome
  | finished : Int → List Char → List Char → RunOutcome

/-- Outcome of the pip subprocess inside `pip_install`. The `raised` case
models `subprocess.run` itself raising (`TimeoutExpired` after 180 s, or a
launch failure such as a missing pip executable): `pip_install` has no
handler for these. -/
inductive PipOutcome where
  | ok : PipOutcome
  | fail : PipOutcome
  | raised : PipOutcome

/-- An exception escaping the modelled code (the Python exception type). -/
inductive PyExn where
  | valueError : PyExn
  | subprocessError : PyExn
deriving DecidableEq

/-- Python-level error observed inside a tool's own `try` block. -/
inductive FsErr where
  | notFound : FsErr
  | other : List Char → FsErr

/-- Oracle for one `_exec_tool` invocation: what the external world does. -/
structure ExecEnv where
  readRes : Except FsErr (List (List Char))
  writeRes : Except (List Char) Unit
  runRes : RunOutcome
  figsBefore : List String
  figsAfter : List String
  listRes : Except (List Char) (List String)
  approved : Bool
  pipRes : PipOutcome

/-- Model of `pip_install` (src/code_agent.py, lines 344-368): runs the pip
subprocess and reports `returncode == 0`; the subprocess call is outside
any `try`, so its own exceptions escape. -/
def pipInstall (r : PipOutcome) : Except PyExn Bool :=
  match r with
  | .ok => .ok true
  | .fail => .ok false
  | .raised => .error .subprocessError

/-- Python list repr of a list of strings (quote escaping elided). -/
def pyStrListRepr (l : List (List Char)) : List Char :=
  "[".data ++ joinSep ", ".data (l.map (fun s => sqc :: s ++ [sqc])) ++ "]".data

/-- `lines[:n]` for a Python int `n` (negative indices cut from the end). -/
def pySliceTo {α : Type} (l : List α) (n : Int) : List α :=
  if 0 ≤ n then l.take n.toNat else l.take (l.length - (-n).toNat)

/-- `str(i)` for a Python int. -/
def intStr (i : Int) : List Char := (toString i).data

/-- The sorted set difference `sorted(after - before)` of the figure
directory snapshots. -/
def newFigsOf (before after : List String) : List String :=
  sortStrs (after.filter (fun f => !before.contains f))

/-- The `run_python` branch of `_exec_tool` (lines 1037-1083), given the
child-process outcome and the figure-directory snapshots. -/
def runPythonExec : RunOutcome → List String → List String → List Char × List String
  | .timeout, _, _ => ("ERROR: execution timed out (300 seconds)".data, [])
  | .launchErr m, _, _ => ("ERROR launching process: ".data ++ m, [])
  | .finished rc out err, before, after =>
    let newFigs := newFigsOf before after
    let parts : List (List Char) :=
      (if !(pyStrip out).isEmpty then ["STDOUT:\n".data ++ out.take 3000] else []) ++
      (if rc != 0 && !(pyStrip err).isEmpty then ["STDERR:\n".data ++ err.take 3000] else []) ++
      ["EXIT CODE: ".data ++ intStr rc] ++
      (if !newFigs.isEmpty then
        ["NEW FIGURES: ".data ++ pyStrListRepr (newFigs.map (fun f => baseName f.data))]
       else [])
    (joinSep "\n".data parts, newFigs)

/-- Model of `_exec_tool` (src/code_agent.py, lines 981-1114). Returns
`.ok (result_text, new_figures)`, or `.error` when the source raises:
`int(tool_args.get("max_lines", 100))` sits outside the `read_file` `try`,
and the pip subprocess inside `install_package` has no handler. -/
def execTool (toolName : String) (args : Json) (env : ExecEnv) :
    Except PyExn (List Char × List String) :=
  if toolName == "read_file" then
    let pathS := pyStr (getJD args "path" (Json.str ""))
    match pyInt (getJD args "max_lines" (Json.num 100)) with
    | none => .error .valueError
    | some maxLines =>
      match env.readRes with
      | .error .notFound => .ok ("ERROR: file not found: ".data ++ pathS, [])
      | .error (.other m) => .ok ("ERROR reading ".data ++ pathS ++ ": ".data ++ m, [])
      | .ok lines =>
        let truncated := (maxLines : Int) < (lines.length : Int)
        let content := catLists (pySliceTo lines maxLines)
        let content :=
          if truncated then
            content ++ "\n... (".data ++ intStr ((lines.length : Int) - maxLines) ++
              " more lines truncated)".data
          else content
        .ok (if content.isEmpty then "(empty file)".data else content, [])
  else if toolName == "write_file" then
    let pathS := pyStr (getJD args "path" (Json.str ""))
    match env.writeRes, getJD args "content" (Json.str "") with
    | .error m, _ => .ok ("ERROR writing ".data ++ pathS ++ ": ".data ++ m, [])
    | .ok _, .str c =>
      let n := (pySplitlines c.data).length
      .ok ("OK: wrote ".data ++ (toString n).data ++ " lines to ".data ++ pathS, [])
    | .ok _, _ =>
      -- `f.write(content)` raises `TypeError` on non-string content,
      -- caught by the same handler
      .ok ("ERROR writing ".data ++ pathS ++ ": write() argument must be str".data, [])
  else if toolName == "run_python" then
    .ok (runPythonExec env.runRes env.figsBefore env.figsAfter)
  else if toolName == "list_files" then
    let dirS := pyStr (getJD args "directory" (Json.str ""))
    let patS := pyStr (getJD args "pattern" (Json.str "*"))
    match env.listRes with
    | .ok files =>
      if files.isEmpty then
        .ok ("(no files matching ".data ++ [sqc] ++ patS ++ [sqc] ++ " in ".data ++
          dirS ++ ")".data, [])
      else .ok (joinSep "\n".data (files.map String.data), [])
    | .error m => .ok ("ERROR: ".data ++ m, [])
  else if toolName == "install_package" then
    let pkgS := pyStr (getJD args "package" (Json.str ""))
    if !env.approved then
      .ok ("DECLINED: user declined to install ".data ++ [sqc] ++ pkgS ++ [sqc] ++
        ". Try an alternative approach without this package.".data, [])
    else
      match pipInstall env.pipRes with
      | .error e => .error e
      | .ok true => .ok ("OK: installed ".data ++ pkgS, [])
      | .ok false => .ok ("ERROR: failed to install ".data ++ pkgS, [])
  else
    .ok ("ERROR: unknown tool ".data ++ [sqc] ++ toolName.data ++ [sqc], [])

/-! ## Filesystem-level model of the `write_file` effect

`_exec_tool`'s `write_file` branch (lines 1016-1034) creates the parent
directories, writes the content to a fresh `NamedTemporaryFile` in the
target's directory, and renames it over the target
(`Path(tmp).replace(path)`). Here the filesystem is a partial map from
paths to contents and the effect is decomposed into its primitive steps so
that mid-call interruption can be stated. -/

/-- A filesystem: path → file content. -/
def Fs : Type := String → Option String

/-- Write (create or overwrite) one file. -/
def fsWrite (fs : Fs) (p : String) (v : String) : Fs :=
  fun q => if q = p then some v else fs q

/-- `Path(src).replace(dst)`: atomic rename. -/
def fsRename (fs : Fs) (src dst : String) : Fs :=
  fun q => if q = dst then fs src else if q = src then none else fs q

/-- The completed `write_file` effect: temp write, then rename; paired with
the success message `f"OK: wrote {n} lines to {path}"`. -/
def writeFileFs (fs : Fs) (path content tmp : String) : Fs × String :=
  (fsRename (fsWrite fs tmp content) tmp path,
   "OK: wrote " ++ toString (pySplitlines content.data).length ++ " lines to " ++ path)

/-- The filesystem as seen if the call is interrupted: stage 0 is before
any write (after `mkdir`, which creates no files), stage 1 is mid-write of
the temporary file with `k` characters flushed, stage 2 is after the
rename. -/
def writeFileStage (fs : Fs) (path content tmp : String) : Nat → Nat → Fs
  | 0, _ => fs
  | 1, k => fsWrite fs tmp (String.mk (content.data.take k))
  | _, _ => (writeFileFs fs path content tmp).1

/-! ## The Agent Loop: `run_coding_agent` (src/code_agent.py, lines 1272-1733)

The inference service and the tool effects are external; one loop step's
interactions are supplied by a `StepEnv` oracle (the model response, and the
outcome of each tool execution performed during that step, indexed in
execution order — auto-injected `run_python` runs included). The loop
state, the fallback test, the text-extractor fallback, the auto-chaining of
`write_file` → `run_python`, and the silent-failure correctives are
transcribed from the source. The initial system/user prompt is pure data
and is passed in as `initMsgs`. -/

/-- Message roles. -/
inductive Role where
  | system : Role
  | user : Role
  | assistant : Role
  | tool : Role
deriving DecidableEq

/-- A conversation message. `toolName` models the `"name"` key of tool
messages (`Json.null` plays Python's missing key); `toolCalls` models the
`"tool_calls"` key of assistant messages (`[]` when absent). -/
structure Msg where
  role : Role
  content : List Char
  toolName : Json := Json.null
  toolCalls : List PCall := []

/-- `any(m.get("role") == "tool" and m.get("name") == "run_python" ...)`. -/
def ranPython (msgs : List Msg) : Bool :=
  msgs.any (fun m => m.role == Role.tool && jsonIsStr m.toolName "run_python")

/-- The mutable locals of `run_coding_agent`. -/
structure LoopSt where
  messages : List Msg
  allFigs : List String
  finalCode : List Char
  finalError : List Char
  success : Bool
  runPyCount : Nat
  lastStep : Nat

/-- `CodeExecutionResult` (src/code_agent.py, lines 26-35). -/
structure CodeExecutionResult where
  success : Bool
  stdout : List Char
  stderr : List Char
  code : List Char
  figures : List String
  retryCount : Nat
  errorMessage : List Char

/-- The outcome of one tool execution, as the surrounding loop observes
it: the result text, the new figure paths, and — for the post-`run_python`
bookkeeping — the script text if `Path(script_path).exists()` and
`read_text` succeed (`none` otherwise). -/
structure ToolOut where
  result : List Char
  newFigs : List String
  readCode : Option (List Char)

/-- The external interactions of one loop step. -/
structure StepEnv where
  response : Except (List Char) (List Char × List PCall)
  outcomes : Nat → ToolOut

/-- The loop result together with the number of times the escalation
fallback `run_code_agent` was invoked. -/
structure AgentOutcome where
  result : CodeExecutionResult
  fallbackCalls : Nat

/-- The final `CodeExecutionResult` built at loop exit (lines 1725-1733). -/
def mkFinal (s : LoopSt) : CodeExecutionResult :=
  { success := s.success
    stdout := []
    stderr := s.finalError
    code := s.finalCode
    figures := s.allFigs
    retryCount := s.lastStep
    errorMessage := if s.success then [] else s.finalError.take 500 }

/-- Normalisation of a tool call's `arguments` (lines 1591-1600):
a JSON string is re-parsed (defaulting to `{}`), a dict is kept, anything
else becomes `{}`. -/
def normArgs (j : Json) : Json :=
  match j with
  | .str s =>
    match parseJson s.data with
    | some a => a
    | none => Json.obj []
  | .obj kvs => .obj kvs
  | _ => Json.obj []

/-- `tool_args.get(k, "")` as a string. A non-string value here makes the
source raise `TypeError` at the subsequent `.endswith` / `Path` call; such
argument maps are outside the model. -/
def getStrArg (args : Json) (k : String) : String :=
  match getJ args k with
  | some (.str s) => s
  | _ => ""

/-- `"\n".join(f"  [{cat}] {p}" ...)` over the exported files (the
re-statement of the exact input paths inside the corrective messages). -/
def refLine (cat : String) (p : String) : List Char :=
  "  [".data ++ cat.data ++ "] ".data ++ p.data

/-- All reference lines, per category in order. -/
def refLines (ef : List (String × List String)) : List (List Char) :=
  catLists (ef.map (fun cp => cp.2.map (refLine cp.1)))

/-- `_file_refs`. -/
def fileRefs (ef : List (String × List String)) : List Char :=
  joinSep "\n".data (refLines ef)

/-- Tail literal shared by the silent-failure corrective (after the
interpolated `output_dir`). -/
def silentTail : List Char :=
  ("/analysis.py\n\n" ++
   "Call write_file NOW with a COMPLETE Python analysis script that:\n" ++
   "  1. Reads the exact paths listed above\n" ++
   "  2. Generates figures fig01–fig14 as described in the task\n" ++
   "  3. Saves each with plt.savefig() to FIGURE_DIR\n" ++
   "Use only the exact paths listed above. Do NOT guess paths.").data

/-- The silent-failure corrective message (lines 1710-1722): exit 0, no new
figures, no figures at all. -/
def silentFailMsg (ef : List (String × List String)) (figDir outDir : List Char) :
    List Char :=
  ("The script ran with EXIT CODE: 0 but NO figures were saved to FIGURE_DIR.\n" ++
   "The script was likely empty or a stub.\n\n" ++
   "CORRECT FILE PATHS — use these EXACT paths in your script:\n").data ++
  fileRefs ef ++
  "\n\nFIGURE_DIR = r".data ++ [sqc] ++ figDir ++ [sqc] ++
  "\nScript path: ".data ++ outDir ++ silentTail

/-- Tail literal of the auto-inject corrective. -/
def autoTail : List Char :=
  ("/analysis.py\n\n" ++
   "Call write_file NOW with a script that:\n" ++
   "  1. Uses pd.read_csv() on the EXACT paths above\n" ++
   "  2. Generates the requested figures\n" ++
   "  3. Saves each with plt.savefig() to FIGURE_DIR\n" ++
   "Add print() after each plt.savefig() to confirm the save.").data

/-- The auto-inject corrective message (lines 1677-1690). -/
def autoFailMsg (ef : List (String × List String)) (figDir outDir : List Char) :
    List Char :=
  ("The script ran with EXIT CODE: 0 but NO figures were saved.\n" ++
   "The script likely hardcoded data or had a silent error in a try/except.\n\n" ++
   "IMPORTANT: Read data from the ACTUAL FILES listed below — do NOT hardcode values.\n\n" ++
   "CORRECT FILE PATHS:\n").data ++
  fileRefs ef ++
  "\n\nFIGURE_DIR = r".data ++ [sqc] ++ figDir ++ [sqc] ++
  "\nScript path: ".data ++ outDir ++ autoTail

/-- The "produce a tool call" nudge (lines 1566-1575), injected when the
model returns prose with no extractable call and no progress yet. -/
def nudgeMsg (outDir : List Char) : List Char :=
  ("You have read the data. Now proceed to the next step:\n" ++
   "1. Call write_file to create the analysis script at ").data ++
  outDir ++
  ("/analysis.py\n" ++
   "2. Call run_python to execute it.\n" ++
   "Do NOT output data or summaries — call write_file NOW.").data

/-- A user-role message. -/
def userMsg (c : List Char) : Msg := { role := .user, content := c }

/-- The token looked for in a `run_python` result. -/
def exitZeroTok : List Char := "EXIT CODE: 0".data

/-- Execute the tool calls of one step in order (lines 1586-1723), with
`k` indexing into the step's tool-outcome oracle. The auto-chained
`run_python` after a successful `.py` `write_file` consumes the next
oracle entry. -/
def execCalls (out : Nat → ToolOut) (ef : List (String × List String))
    (figDir outDir : List Char) (step maxSteps : Nat) :
    List PCall → Nat → LoopSt → LoopSt × Nat
  | [], k, s => (s, k)
  | tc :: rest, k, s =>
    let toolArgs := normArgs tc.args
    let o := out k
    let s := { s with allFigs := s.allFigs ++ o.newFigs }
    let s :=
      if jsonIsStr tc.name "run_python" then { s with runPyCount := s.runPyCount + 1 }
      else s
    let pathArg := getStrArg toolArgs "path"
    let s :=
      if jsonIsStr tc.name "run_python" && hasSeg exitZeroTok o.result then
        let s := { s with success := true }
        if pathArg != "" then
          match o.readCode with
          | some t => { s with finalCode := t }
          | none => s
        else s
      else s
    let s := { s with messages := s.messages ++
        [{ role := .tool, content := o.result.take 4000, toolName := tc.name }] }
    if jsonIsStr tc.name "write_file" && hasSeg "OK: wrote".data o.result &&
        endsWithSeg ".py".data pathArg.data then
      -- auto-inject run_python on the just-written script
      let ro := out (k + 1)
      let s := { s with allFigs := s.allFigs ++ ro.newFigs,
                        runPyCount := s.runPyCount + 1 }
      let s :=
        if hasSeg exitZeroTok ro.result && !ro.newFigs.isEmpty then
          let s := { s with success := true }
          match ro.readCode with
          | some t => { s with finalCode := t }
          | none => s
        else s
      let s := { s with messages := s.messages ++
          [{ role := .tool, content := ro.result.take 4000,
             toolName := Json.str "run_python" }] }
      let s :=
        if hasSeg exitZeroTok ro.result && ro.newFigs.isEmpty && s.allFigs.isEmpty &&
            step < maxSteps - 2 then
          { s with messages := s.messages ++ [userMsg (autoFailMsg ef figDir outDir)] }
        else s
      execCalls out ef figDir outDir step maxSteps rest (k + 2) s
    else
      let s :=
        if jsonIsStr tc.name "run_python" && hasSeg exitZeroTok o.result &&
            o.newFigs.isEmpty && s.allFigs.isEmpty && step < maxSteps - 2 then
          { s with messages := s.messages ++ [userMsg (silentFailMsg ef figDir outDir)] }
        else s
      execCalls out ef figDir outDir step maxSteps rest (k + 1) s

/-- The step loop of `run_coding_agent` (lines 1506-1723). `fuel` counts the
remaining iterations of `for step in range(1, max_steps + 1)`. The
`AgentOutcome.fallbackCalls` field counts invocations of the escalation
fallback `run_code_agent`, whose result `fb` is returned directly. -/
def loopGo (env : Nat → StepEnv) (fb : CodeExecutionResult)
    (ef : List (String × List String)) (figDir outDir : List Char)
    (maxSteps : Nat) : Nat → Nat → LoopSt → AgentOutcome
  | 0, _, s => ⟨mkFinal s, 0⟩
  | fuel + 1, step, s =>
    if s.allFigs = [] ∧ ((step = 6 ∧ s.runPyCount = 0) ∨ 3 ≤ s.runPyCount) then
      -- escalate: invoke the single-shot fallback once and return its result
      ⟨fb, 1⟩
    else
      let s := { s with lastStep := step }
      match (env step).response with
      | .error e => ⟨mkFinal { s with finalError := e }, 0⟩
      | .ok (content, nativeCalls) =>
        let calls := extractCalls content nativeCalls
        let s := { s with messages := s.messages ++
            [{ role := .assistant, content := content, toolCalls := calls }] }
        if calls.isEmpty then
          if s.allFigs = [] ∧ ranPython s.messages = false ∧ step < maxSteps - 2 then
            loopGo env fb ef figDir outDir maxSteps fuel (step + 1)
              { s with messages := s.messages ++ [userMsg (nudgeMsg outDir)] }
          else ⟨mkFinal { s with success := true }, 0⟩
        else
          loopGo env fb ef figDir outDir maxSteps fuel (step + 1)
            (execCalls (env step).outcomes ef figDir outDir step maxSteps calls 0 s).1

/-- `run_coding_agent`, from the initial conversation onward. -/
def runCodingAgent (env : Nat → StepEnv) (fb : CodeExecutionResult)
    (ef : List (String × List String)) (figDir outDir : List Char)
    (maxSteps : Nat) (initMsgs : List Msg) : AgentOutcome :=
  loopGo env fb ef figDir outDir maxSteps maxSteps 1
    { messages := initMsgs, allFigs := [], finalCode := [], finalError := [],
      success := false, runPyCount := 0, lastStep := 0 }

/-! ## Supporting lemmas -/

theorem begMatch_nil_needle (h : List Char) : begMatch [] h = true := rfl

theorem begMatch_self_app : ∀ (n b : List Char), begMatch n (n ++ b) = true
  | [], _ => rfl
  | c :: n, b => by simp [begMatch]; exact begMatch_self_app n b

theorem begMatch_refl (n : List Char) : begMatch n n = true := by
  have := begMatch_self_app n []
  simpa using this

theorem begMatch_extend : ∀ (n h b : List Char),
    begMatch n h = true → begMatch n (h ++ b) = true
  | [], _, _, _ => rfl
  | _ :: _, [], _, hb => by simp [begMatch] at hb
  | c :: n, d :: h, b, hb => by
    simp [begMatch] at hb ⊢
    exact ⟨hb.1, begMatch_extend n h b hb.2⟩

theorem hasSeg_nil_needle : ∀ (h : List Char), hasSeg [] h = true
  | [] => rfl
  | _ :: _ => by simp [hasSeg, begMatch]

theorem hasSeg_of_beg : ∀ (n h : List Char), begMatch n h = true → hasSeg n h = true
  | _, [], hb => by simpa [hasSeg] using hb
  | _, _ :: _, hb => by simp [hasSeg, hb]

theorem hasSeg_append_right : ∀ (a : List Char) {n b : List Char},
    hasSeg n b = true → hasSeg n (a ++ b) = true
  | [], _, _, h => h
  | c :: a, n, b, h => by
    simp only [List.cons_append, hasSeg, Bool.or_eq_true]
    exact Or.inr (hasSeg_append_right a h)

theorem hasSeg_append_left : ∀ {n : List Char} (a b : List Char),
    hasSeg n a = true → hasSeg n (a ++ b) = true
  | n, [], b, h => by
    have hn : n = [] := by
      cases n with
      | nil => rfl
      | cons c t => simp [hasSeg, begMatch] at h
    subst hn; exact hasSeg_nil_needle b
  | n, c :: a, b, h => by
    simp only [hasSeg, Bool.or_eq_true] at h
    simp only [List.cons_append, hasSeg, Bool.or_eq_true]
    cases h with
    | inl h => exact Or.inl (by simpa using begMatch_extend n (c :: a) b h)
    | inr h => exact Or.inr (hasSeg_append_left a b h)

theorem hasSeg_mid (n pre post : List Char) : hasSeg n (pre ++ n ++ post) = true := by
  rw [List.append_assoc]
  exact hasSeg_append_right pre (hasSeg_of_beg n (n ++ post) (begMatch_self_app n post))

theorem hasSeg_suffix (n pre : List Char) : hasSeg n (pre ++ n) = true :=
  hasSeg_append_right pre (hasSeg_of_beg n n (begMatch_refl n))

theorem hasSeg_joinSep {n : List Char} (sep : List Char) :
    ∀ (parts : List (List Char)) (l : List Char), l ∈ parts →
      hasSeg n l = true → hasSeg n (joinSep sep parts) = true
  | [], _, hmem, _ => by cases hmem
  | [x], l, hmem, hseg => by
    rcases List.mem_singleton.mp hmem with rfl
    simpa [joinSep] using hseg
  | x :: y :: rest, l, hmem, hseg => by
    rcases List.mem_cons.mp hmem with rfl | hmem
    · simp only [joinSep]
      rw [List.append_assoc]
      exact hasSeg_append_left _ _ hseg
    · simp only [joinSep]
      rw [List.append_assoc]
      exact hasSeg_append_right _ (hasSeg_append_right _
        (hasSeg_joinSep sep (y :: rest) l hmem hseg))

theorem mem_catLists {α : Type} {x : α} :
    ∀ {ls : List (List α)} {l : List α}, l ∈ ls → x ∈ l → x ∈ catLists ls
  | [], _, hmem, _ => by cases hmem
  | a :: ls, l, hmem, hx => by
    rcases List.mem_cons.mp hmem with rfl | hmem
    · exact List.mem_append.mpr (Or.inl hx)
    · exact List.mem_append.mpr (Or.inr (mem_catLists hmem hx))

theorem refLine_mem {ef : List (String × List String)} {cat : String}
    {ps : List String} {p : String} (hcat : (cat, ps) ∈ ef) (hp : p ∈ ps) :
    refLine cat p ∈ refLines ef := by
  unfold refLines
  exact mem_catLists (List.mem_map.mpr ⟨(cat, ps), hcat, rfl⟩)
    (List.mem_map.mpr ⟨p, hp, rfl⟩)

theorem hasSeg_refLine (cat p : String) : hasSeg p.data (refLine cat p) = true := by
  unfold refLine
  rw [List.append_assoc, List.append_assoc]
  exact hasSeg_append_right _ (hasSeg_append_right _ (hasSeg_suffix _ _))

theorem hasSeg_fileRefs {ef : List (String × List String)} {cat : String}
    {ps : List String} {p : String} (hcat : (cat, ps) ∈ ef) (hp : p ∈ ps) :
    hasSeg p.data (fileRefs ef) = true :=
  hasSeg_joinSep _ _ _ (refLine_mem hcat hp) (hasSeg_refLine cat p)

theorem chunksOfA_fuel (n : Nat) (hn : 0 < n) :
    ∀ (f g : Nat) (cs : List Char), cs.length ≤ f → cs.length ≤ g →
      chunksOfA n f cs = chunksOfA n g cs := by
  intro f
  induction f with
  | zero =>
    intro g cs hf _
    have : cs = [] := List.eq_nil_of_length_eq_zero (Nat.le_zero.mp hf)
    subst this
    cases g <;> simp [chunksOfA]
  | succ f ih =>
    intro g cs hf hg
    cases cs with
    | nil => cases g <;> simp [chunksOfA]
    | cons c t =>
      cases g with
      | zero => simp at hg
      | succ g =>
        simp only [chunksOfA, List.isEmpty, Bool.false_eq_true, if_false]
        congr 1
        apply ih
        · have := List.length_drop n (c :: t)
          omega
        · have := List.length_drop n (c :: t)
          omega

theorem chunksOf_app50 (x y : List Char) (hx : x.length = 50) :
    chunksOf 50 (x ++ y) = x :: chunksOf 50 y := by
  unfold chunksOf
  have hlen : (x ++ y).length = 50 + y.length := by simp [hx]
  rw [hlen]
  have h50 : 50 + y.length = (49 + y.length) + 1 := by omega
  rw [h50]
  have hne : (x ++ y).isEmpty = false := by
    cases x with
    | nil => simp at hx
    | cons c t => simp
  simp only [chunksOfA, hne, Bool.false_eq_true, if_false]
  have htake : (x ++ y).take 50 = x := by
    rw [← hx]; exact List.take_left x y
  have hdrop : (x ++ y).drop 50 = y := by
    rw [← hx]; exact List.drop_left x y
  rw [htake, hdrop]
  congr 1
  exact chunksOfA_fuel 50 (by omega) (49 + y.length) y.length y (by omega) (by omega)

theorem chunksOf_single50 (b : List Char) (hb : b.length = 50) :
    chunksOf 50 b = [b] := by
  have h := chunksOf_app50 b [] hb
  rw [List.append_nil] at h
  rw [h]
  simp [chunksOf, chunksOfA]

theorem chunksOf_app_mult : ∀ (m : Nat) (pre y : List Char), pre.length = 50 * m →
    chunksOf 50 (pre ++ y) = chunksOf 50 pre ++ chunksOf 50 y := by
  intro m
  induction m with
  | zero =>
    intro pre y hpre
    have : pre = [] := List.eq_nil_of_length_eq_zero (by omega)
    subst this
    simp
    rfl
  | succ m ih =>
    intro pre y hpre
    have h50 : 50 ≤ pre.length := by omega
    have hx : (pre.take 50).length = 50 := by
      rw [List.length_take]; omega
    have hrest : (pre.drop 50).length = 50 * m := by
      rw [List.length_drop]; omega
    conv_lhs => rw [← List.take_append_drop 50 pre]
    rw [List.append_assoc, chunksOf_app50 _ _ hx, ih _ _ hrest]
    conv_rhs => rw [← List.take_append_drop 50 pre, chunksOf_app50 _ _ hx]
    simp

theorem lastFourSame_append (A : List (List Char)) (b : List Char) :
    lastFourSame (A ++ [b, b, b, b]) = true := by
  unfold lastFourSame
  have hlen : (A ++ [b, b, b, b]).length = A.length + 4 := by simp
  rw [hlen]
  have : A.length + 4 - 4 = A.length := by omega
  rw [this]
  have hdrop : (A ++ [b, b, b, b]).drop A.length = [b, b, b, b] :=
    List.drop_left A [b, b, b, b]
  rw [hdrop]
  simp

theorem repDetected_of_tail (full pre b : List Char)
    (htail : full.drop (full.length - 500) = pre ++ (b ++ (b ++ (b ++ b))))
    (hpre : pre.length = 300) (hb : b.length = 50) :
    repDetected full = true := by
  unfold repDetected
  rw [htail]
  rw [chunksOf_app_mult 6 pre _ (by omega)]
  rw [chunksOf_app50 _ _ hb, chunksOf_app50 _ _ hb, chunksOf_app50 _ _ hb,
    chunksOf_single50 _ hb]
  exact lastFourSame_append _ b

/-! ## Claim theorems: the Stream Consumer (C2, C8) -/

theorem consumeChunks_content_cons (c : Chunk) (rest : List Chunk)
    (full tcs th) (hth : c.thinking = []) (hc : c.content ≠ []) :
    consumeChunks (c :: rest) full tcs th =
      (if 2000 < (full ++ c.content).length ∧ repDetected (full ++ c.content) = true then
        ⟨(full ++ c.content).take ((full ++ c.content).length - 500) ++ truncMarker,
         tcs ++ c.toolCalls, th, .repetition⟩
      else if 20000 < (full ++ c.content).length then
        ⟨full ++ c.content, tcs ++ c.toolCalls, th, .sizeCap⟩
      else if c.done then
        ⟨full ++ c.content, tcs ++ c.toolCalls, th, .doneFlag⟩
      else consumeChunks rest (full ++ c.content) (tcs ++ c.toolCalls) th) := by
  rw [consumeChunks]
  rw [if_neg (by simp [hth]), if_pos hc]

/-- C2: once the assembled content has passed the 2000-character minimum and
its 500-character tail is a 50-character block repeated (the last four
50-character runs of the tail are identical), processing the fragment stops
the stream immediately: the remaining fragments are never consumed, the
size-cap branch is never reached (the repetition test precedes it, so this
holds even when the content also exceeds the 20000-character cap), and the
500-character tail is replaced by the repetition truncation marker. -/
theorem claim_C2_repetition_guard
    (full th : List Char) (tcs : List PCall) (c : Chunk) (rest : List Chunk)
    (pre b : List Char)
    (hth : c.thinking = []) (hc : c.content ≠ [])
    (hlen : 2000 < (full ++ c.content).length)
    (htail : (full ++ c.content).drop ((full ++ c.content).length - 500) =
      pre ++ (b ++ (b ++ (b ++ b))))
    (hpre : pre.length = 300) (hb : b.length = 50) :
    consumeChunks (c :: rest) full tcs th =
      ⟨(full ++ c.content).take ((full ++ c.content).length - 500) ++ truncMarker,
       tcs ++ c.toolCalls, th, .repetition⟩ := by
  have hrep : repDetected (full ++ c.content) = true :=
    repDetected_of_tail _ pre b htail hpre hb
  rw [consumeChunks_content_cons c rest full tcs th hth hc,
    if_pos ⟨hlen, hrep⟩]

/-- The concrete fragment used by the C2 witness. -/
def c2chunk : Chunk := ⟨[], [], List.replicate 51 'a', false⟩

/-- Witness for C2 at a concrete stream state: 2450 accumulated characters
followed by a 51-character fragment of the same repeated character. -/
theorem claim_C2_repetition_guard_witness :
    consumeChunks [c2chunk] (List.replicate 2450 'a') [] [] =
      ⟨(List.replicate 2450 'a' ++ c2chunk.content).take
          ((List.replicate 2450 'a' ++ c2chunk.content).length - 500) ++
          truncMarker, [] ++ c2chunk.toolCalls, [], .repetition⟩ := by
  have hconv : List.replicate 2450 'a' ++ c2chunk.content =
      List.replicate 2501 'a' := by
    show List.replicate 2450 'a' ++ List.replicate 51 'a' = _
    rw [← List.replicate_add]
  refine claim_C2_repetition_guard (List.replicate 2450 'a') [] []
    c2chunk [] (List.replicate 300 'a') (List.replicate 50 'a')
    rfl ?_ ?_ ?_ ?_ ?_
  · show List.replicate 51 'a' ≠ []
    intro h
    have hl := congrArg List.length h
    rw [List.length_replicate] at hl
    exact absurd hl (by decide)
  · rw [hconv, List.length_replicate]
    omega
  · rw [hconv, List.length_replicate]
    have hsplit : List.replicate 2501 'a' =
        List.replicate 2001 'a' ++ List.replicate 500 'a' := by
      rw [← List.replicate_add]
    have hdrop : (List.replicate 2501 'a').drop (2501 - 500) =
        List.replicate 500 'a' := by
      conv_lhs => rw [hsplit]
      have h2001 : (2501 : Nat) - 500 = (List.replicate 2001 'a').length := by
        rw [List.length_replicate]
      rw [h2001, List.drop_left]
    rw [hdrop]
    rw [show (500 : Nat) = 300 + (50 + (50 + (50 + 50))) from rfl]
    rw [List.replicate_add, List.replicate_add, List.replicate_add,
      List.replicate_add]
  · exact List.length_replicate 300 'a'
  · exact List.length_replicate 50 'a'

/-- C8: when a fragment pushes the assembled content over the fixed
20000-character cap, the consumer stops at that fragment — the remaining
fragments are never consumed (the result equals that of a stream ending
there) — and the response is marked truncated: the stop cause is one of the
two truncation notices (the repetition guard, checked first, or the
size cap). -/
theorem claim_C8_size_cap
    (full th : List Char) (tcs : List PCall) (c : Chunk) (rest : List Chunk)
    (hth : c.thinking = []) (hc : c.content ≠ [])
    (hlen : 20000 < (full ++ c.content).length) :
    consumeChunks (c :: rest) full tcs th = consumeChunks [c] full tcs th ∧
      ((consumeChunks [c] full tcs th).stop = .repetition ∨
       (consumeChunks [c] full tcs th).stop = .sizeCap) := by
  rw [consumeChunks_content_cons c rest full tcs th hth hc,
    consumeChunks_content_cons c [] full tcs th hth hc]
  by_cases hrep : 2000 < (full ++ c.content).length ∧
      repDetected (full ++ c.content) = true
  · rw [if_pos hrep, if_pos hrep]
    exact ⟨rfl, Or.inl rfl⟩
  · rw [if_neg hrep, if_neg hrep, if_pos hlen, if_pos hlen]
    exact ⟨rfl, Or.inr rfl⟩

/-- Witness for C8 at a concrete stream state: a fragment pushing the
content to 20001 characters with a non-repeating tail. -/
theorem claim_C8_size_cap_witness :
    consumeChunks [⟨[], [], "abc".data, false⟩] (List.replicate 19998 'x') [] [] =
        consumeChunks [⟨[], [], "abc".data, false⟩] (List.replicate 19998 'x') [] [] ∧
      ((consumeChunks [⟨[], [], "abc".data, false⟩]
          (List.replicate 19998 'x') [] []).stop = .repetition ∨
       (consumeChunks [⟨[], [], "abc".data, false⟩]
          (List.replicate 19998 'x') [] []).stop = .sizeCap) := by
  have h := claim_C8_size_cap (List.replicate 19998 'x') [] []
    ⟨[], [], "abc".data, false⟩ [] rfl (by decide)
    (by rw [List.length_append, List.length_replicate]; decide)
  exact ⟨rfl, h.2⟩

/-! ## Claim theorem: `_detect_missing_module` (C10) -/

theorem noModAt_nil : noModAt [] = none := rfl

theorem findNoMod_none_iff : ∀ (cs : List Char),
    findNoMod cs = none ↔ ∀ i, noModAt (cs.drop i) = none := by
  intro cs
  induction cs with
  | nil => simp [findNoMod, noModAt_nil]
  | cons c t ih =>
    constructor
    · intro h i
      cases hm : noModAt (c :: t) with
      | some cap => rw [findNoMod, hm] at h; cases h
      | none =>
        cases i with
        | zero => exact hm
        | succ i =>
          rw [findNoMod, hm] at h
          exact (ih.mp h) i
    · intro h
      have h0 := h 0
      rw [List.drop_zero] at h0
      rw [findNoMod, h0]
      exact ih.mpr (fun i => h (i + 1))

theorem findNoMod_first : ∀ (i : Nat) (cs : List Char) (cap : List Char),
    (∀ j, j < i → noModAt (cs.drop j) = none) →
    noModAt (cs.drop i) = some cap →
    findNoMod cs = some cap := by
  intro i
  induction i with
  | zero =>
    intro cs cap _ hat
    rw [List.drop_zero] at hat
    cases cs with
    | nil => rw [noModAt_nil] at hat; cases hat
    | cons c t => rw [findNoMod, hat]
  | succ i ih =>
    intro cs cap hbefore hat
    cases cs with
    | nil => rw [List.drop_nil, noModAt_nil] at hat; cases hat
    | cons c t =>
      have h0 := hbefore 0 (Nat.succ_pos i)
      rw [List.drop_zero] at h0
      rw [findNoMod, h0]
      exact ih t cap (fun j hj => hbefore (j + 1) (Nat.succ_lt_succ hj)) hat

theorem takeWhile_app_stop {p : Char → Bool} : ∀ (m : List Char) (x : Char)
    (r : List Char), (∀ c ∈ m, p c = true) → p x = false →
    (m ++ x :: r).takeWhile p = m
  | [], x, r, _, hx => by simp [List.takeWhile, hx]
  | c :: m, x, r, hall, hx => by
    have hc : p c = true := hall c (List.mem_cons_self c m)
    simp only [List.cons_append, List.takeWhile, hc, List.append_eq]
    rw [takeWhile_app_stop m x r (fun d hd => hall d (List.mem_cons_of_mem c hd)) hx]

/-- The decomposition reading of the regex at a match site: the literal
`No module named '`, a non-empty quote-free capture, a closing quote. -/
theorem noModAt_decomp (m rest : List Char) (hm : m ≠ [])
    (hq : ∀ c ∈ m, c ≠ sqc) :
    noModAt (noModLit ++ m ++ [sqc] ++ rest) = some m := by
  have hlit : noModLit.length = 17 := by decide
  have hbeg : begMatch noModLit (noModLit ++ (m ++ ([sqc] ++ rest))) = true :=
    begMatch_self_app noModLit _
  have hdrop : (noModLit ++ (m ++ ([sqc] ++ rest))).drop 17 =
      m ++ ([sqc] ++ rest) := by
    rw [← hlit]; exact List.drop_left _ _
  have htw : (m ++ ([sqc] ++ rest)).takeWhile (fun c => c != sqc) = m := by
    have := takeWhile_app_stop (p := fun c => c != sqc) m sqc rest
      (fun c hc => by simp [hq c hc]) (by simp)
    simpa using this
  have hdm : (m ++ ([sqc] ++ rest)).drop m.length = [sqc] ++ rest :=
    List.drop_left _ _
  simp only [noModAt, List.append_assoc]
  rw [if_pos hbeg, hdrop, htw, hdm]
  rw [if_pos]
  simp [hm]

/-- C10: `_detect_missing_module` returns `None` exactly when no position of
the stderr text matches `No module named '([^']+)'`; at the first matching
position it returns the capture's top-level component (the text before the
first dot) mapped through the fixed module-to-pip-name table, which maps
sklearn, skbio, Bio, cv2, PIL and is the identity elsewhere. The returned
name is what `run_code_agent` hands to the install-approval callback and to
`pip_install`. -/
theorem claim_C10_detect_missing_module (s : String) :
    (detectMissingModule s = none ↔ ∀ i, noModAt (s.data.drop i) = none) ∧
    (∀ i cap, (∀ j, j < i → noModAt (s.data.drop j) = none) →
      noModAt (s.data.drop i) = some cap →
      detectMissingModule s =
        some (pipNameMap (String.mk (cap.takeWhile (fun c => c != '.'))))) ∧
    (pipNameMap "sklearn" = "scikit-learn" ∧ pipNameMap "skbio" = "scikit-bio" ∧
     pipNameMap "Bio" = "biopython" ∧ pipNameMap "cv2" = "opencv-python" ∧
     pipNameMap "PIL" = "Pillow" ∧
     ∀ m : String, m ∉ ["sklearn", "skbio", "Bio", "cv2", "PIL"] →
       pipNameMap m = m) := by
  refine ⟨?_, ?_, rfl, rfl, rfl, rfl, rfl, ?_⟩
  · unfold detectMissingModule
    cases hf : findNoMod s.data with
    | some cap =>
      simp only [reduceCtorEq, false_iff]
      intro hall
      rw [(findNoMod_none_iff s.data).mpr hall] at hf
      cases hf
    | none =>
      simp only [true_iff]
      exact (findNoMod_none_iff s.data).mp hf
  · intro i cap hbefore hat
    unfold detectMissingModule
    rw [findNoMod_first i s.data cap hbefore hat]
  · intro m hm
    simp only [List.mem_cons, List.mem_singleton] at hm
    push_neg at hm
    obtain ⟨h1, h2, h3, h4, h5⟩ := hm
    unfold pipNameMap
    rw [if_neg (by simpa using h1), if_neg (by simpa using h2),
      if_neg (by simpa using h3), if_neg (by simpa using h4),
      if_neg (by simpa using h5)]

/-- Witness for C10: a stderr line mentioning `sklearn.linear` maps to
`scikit-learn` via the first-match rule. -/
theorem claim_C10_detect_missing_module_witness :
    detectMissingModule
        (String.mk ("Traceback: No module named ".data ++ [sqc] ++
          "sklearn.linear".data ++ [sqc] ++ " here".data)) =
      some (pipNameMap (String.mk ("sklearn.linear".data.takeWhile
        (fun c => c != '.')))) := by
  refine (claim_C10_detect_missing_module _).2.1 11 "sklearn.linear".data ?_ ?_
  · decide
  · decide

/-! ## Claim theorems: the Tool Executor (C3, C6, C9) -/

/-- A concrete executor environment of fully benign external behaviour. -/
def c3env : ExecEnv :=
  { readRes := .ok [], writeRes := .ok (), runRes := .finished 0 [] [],
    figsBefore := [], figsAfter := [], listRes := .ok [],
    approved := true, pipRes := .ok }

/-- C3 (code bug): the claimed "never raises" policy has two holes in the
source. `int(tool_args.get("max_lines", 100))` sits before the `read_file`
`try` block, so a non-integer `max_lines` raises `ValueError` out of
`_exec_tool`; and the pip subprocess inside `install_package` →
`pip_install` has no exception handler, so a pip timeout
(`subprocess.TimeoutExpired` after 180 s) or a launch failure propagates.
Both evaluated here on concrete argument maps. -/
theorem claim_C3_exec_tool_raises :
    execTool "read_file"
        (Json.obj [("path", Json.str "/data/x.tsv"), ("max_lines", Json.str "3.5")])
        c3env = .error .valueError ∧
    execTool "install_package" (Json.obj [("package", Json.str "somepkg")])
        { c3env with pipRes := .raised } = .error .subprocessError := by
  exact ⟨rfl, rfl⟩

/-- The empty filesystem (used by the C6 witness). -/
def fsEmpty : Fs := fun _ => none

/-- C6: `write_file` is idempotent — two calls with the same `path` and
`content` produce the same success message (reporting the line count) and
leave the same final content — and atomic: the content goes to a temporary
sibling first and is renamed over the target, so at every interruption
stage (before the write, mid-write of the temporary with any `k` characters
flushed, after the rename) the target path holds either its old content or
the complete new content, never a partial write. -/
theorem claim_C6_write_file_idempotent_atomic
    (fs : Fs) (path content tmp1 tmp2 : String)
    (h1 : tmp1 ≠ path) (_h2 : tmp2 ≠ path) :
    (writeFileFs fs path content tmp1).2 =
      (writeFileFs (writeFileFs fs path content tmp1).1 path content tmp2).2 ∧
    (writeFileFs fs path content tmp1).1 path = some content ∧
    (writeFileFs (writeFileFs fs path content tmp1).1 path content tmp2).1 path =
      some content ∧
    (∀ stage k, writeFileStage fs path content tmp1 stage k path = fs path ∨
      writeFileStage fs path content tmp1 stage k path = some content) := by
  refine ⟨rfl, ?_, ?_, ?_⟩
  · simp [writeFileFs, fsRename, fsWrite]
  · simp [writeFileFs, fsRename, fsWrite]
  · intro stage k
    match stage with
    | 0 => exact Or.inl rfl
    | 1 =>
      left
      simp only [writeFileStage, fsWrite]
      rw [if_neg (fun h => h1 h.symm)]
    | (n + 2) =>
      right
      simp [writeFileStage, writeFileFs, fsRename, fsWrite]

/-- Witness for C6 on a concrete write. -/
theorem claim_C6_write_file_idempotent_atomic_witness :
    ("/w/.a.tmp" : String) ≠ "/w/analysis.py" ∧
    (writeFileFs fsEmpty "/w/analysis.py" "print(1)\n" "/w/.a.tmp").2 =
      (writeFileFs (writeFileFs fsEmpty "/w/analysis.py" "print(1)\n" "/w/.a.tmp").1
        "/w/analysis.py" "print(1)\n" "/w/.b.tmp").2 ∧
    (writeFileFs fsEmpty "/w/analysis.py" "print(1)\n" "/w/.a.tmp").1 "/w/analysis.py" =
      some "print(1)\n" ∧
    (writeFileStage fsEmpty "/w/analysis.py" "print(1)\n" "/w/.a.tmp" 1 3 "/w/analysis.py" =
        fsEmpty "/w/analysis.py" ∨
      writeFileStage fsEmpty "/w/analysis.py" "print(1)\n" "/w/.a.tmp" 1 3 "/w/analysis.py" =
        some "print(1)\n") := by
  have h := claim_C6_write_file_idempotent_atomic fsEmpty "/w/analysis.py"
    "print(1)\n" "/w/.a.tmp" "/w/.b.tmp" (by decide) (by decide)
  exact ⟨by decide, h.1, h.2.1, h.2.2.2 1 3⟩

theorem mem_insSorted (x s : String) : ∀ (l : List String),
    x ∈ insSorted s l ↔ x = s ∨ x ∈ l
  | [] => by simp [insSorted]
  | t :: rest => by
    unfold insSorted
    by_cases hle : leChars s.data t.data = true
    · simp [hle]
    · simp only [Bool.not_eq_true] at hle
      simp only [hle, Bool.false_eq_true, if_false, List.mem_cons]
      rw [mem_insSorted x s rest]
      tauto

theorem mem_sortStrs (x : String) : ∀ (l : List String), x ∈ sortStrs l ↔ x ∈ l
  | [] => Iff.rfl
  | s :: rest => by
    unfold sortStrs
    rw [mem_insSorted, mem_sortStrs x rest, List.mem_cons]

theorem mem_newFigsOf (f : String) (before after : List String) :
    f ∈ newFigsOf before after ↔ (f ∈ after ∧ f ∉ before) := by
  unfold newFigsOf
  rw [mem_sortStrs, List.mem_filter]
  simp [List.contains, List.elem_iff]

/-- The concrete environment of the C9 counterexample: the script exits 0
with non-empty stderr. -/
def c9env : ExecEnv :=
  { readRes := .ok [], writeRes := .ok (), runRes := .finished 0 "ok\n".data "boom".data,
    figsBefore := [], figsAfter := [], listRes := .ok [],
    approved := false, pipRes := .ok }

/-- C9 counterexample: a `run_python` execution that exits 0 with stderr
`boom` — the result text omits the stderr entirely (the source includes a
`STDERR:` section only when the exit code is non-zero), refuting the claim
that the result text always contains both streams. -/
theorem claim_C9_counterexample :
    execTool "run_python" (Json.obj [("path", Json.str "/w/a.py")]) c9env =
      .ok ("STDOUT:\nok\n\nEXIT CODE: 0".data, []) ∧
    hasSeg "boom".data "STDOUT:\nok\n\nEXIT CODE: 0".data = false := by
  exact ⟨rfl, by decide⟩

/-- C9 (amended): for a `run_python` execution whose child process finishes,
the result pairs the text with the new-artifact set — exactly the
paths present in the figure directory's after-snapshot and absent from its
before-snapshot (reported sorted) — and the text contains the exit code,
contains the stdout truncated to 3000 characters whenever stdout is
non-blank, and contains the stderr truncated to 3000 characters whenever
the exit code is non-zero and stderr is non-blank (for a zero exit the
stderr is omitted). -/
theorem claim_C9_run_result (args : Json) (env : ExecEnv) (rc : Int)
    (out err text : List Char) (figs : List String)
    (hrun : env.runRes = .finished rc out err)
    (hok : execTool "run_python" args env = .ok (text, figs)) :
    (∀ f, f ∈ figs ↔ (f ∈ env.figsAfter ∧ f ∉ env.figsBefore)) ∧
    hasSeg ("EXIT CODE: ".data ++ intStr rc) text = true ∧
    (pyStrip out ≠ [] → hasSeg ("STDOUT:\n".data ++ out.take 3000) text = true) ∧
    (rc ≠ 0 → pyStrip err ≠ [] →
      hasSeg ("STDERR:\n".data ++ err.take 3000) text = true) := by
  have hx : execTool "run_python" args env =
      .ok (runPythonExec env.runRes env.figsBefore env.figsAfter) := rfl
  rw [hx, hrun] at hok
  simp only [runPythonExec] at hok
  have htext : text = joinSep "\n".data
      ((if !(pyStrip out).isEmpty then ["STDOUT:\n".data ++ out.take 3000] else []) ++
       (if rc != 0 && !(pyStrip err).isEmpty then ["STDERR:\n".data ++ err.take 3000] else []) ++
       ["EXIT CODE: ".data ++ intStr rc] ++
       (if !(newFigsOf env.figsBefore env.figsAfter).isEmpty then
         ["NEW FIGURES: ".data ++ pyStrListRepr
           ((newFigsOf env.figsBefore env.figsAfter).map (fun f => baseName f.data))]
        else [])) := by
    have := congrArg (fun r => match r with | .ok p => p.1 | .error _ => []) hok
    simpa using this.symm
  have hfigs : figs = newFigsOf env.figsBefore env.figsAfter := by
    have := congrArg (fun r => match r with | .ok p => p.2 | .error _ => []) hok
    simpa using this.symm
  refine ⟨?_, ?_, ?_, ?_⟩
  · intro f
    rw [hfigs]
    exact mem_newFigsOf f env.figsBefore env.figsAfter
  · rw [htext]
    refine hasSeg_joinSep _ _ _ ?_ (hasSeg_of_beg _ _ (begMatch_refl _))
    refine List.mem_append.mpr (Or.inl ?_)
    exact List.mem_append.mpr (Or.inr (List.mem_singleton.mpr rfl))
  · intro hout
    rw [htext]
    refine hasSeg_joinSep _ _ _ ?_ (hasSeg_of_beg _ _ (begMatch_refl _))
    refine List.mem_append.mpr (Or.inl (List.mem_append.mpr (Or.inl
      (List.mem_append.mpr (Or.inl ?_)))))
    rw [if_pos (by simpa using hout)]
    exact List.mem_singleton.mpr rfl
  · intro hrc herr
    rw [htext]
    refine hasSeg_joinSep _ _ _ ?_ (hasSeg_of_beg _ _ (begMatch_refl _))
    refine List.mem_append.mpr (Or.inl (List.mem_append.mpr (Or.inl
      (List.mem_append.mpr (Or.inr ?_)))))
    rw [if_pos]
    · exact List.mem_singleton.mpr rfl
    · simp only [Bool.and_eq_true, bne_iff_ne, ne_eq]
      exact ⟨hrc, by simpa using herr⟩

/-- The concrete environment of the C9 witness: exit code 2, stderr text,
one new figure. -/
def c9wenv : ExecEnv :=
  { readRes := .ok [], writeRes := .ok (),
    runRes := .finished 2 "out line\n".data "Traceback: fail\n".data,
    figsBefore := ["/f/old.png"], figsAfter := ["/f/old.png", "/f/new.png"],
    listRes := .ok [], approved := false, pipRes := .ok }

/-- Witness for the amended C9 on a concrete failing run with one new
figure. -/
theorem claim_C9_run_result_witness :
    ("/f/new.png" ∈ (newFigsOf c9wenv.figsBefore c9wenv.figsAfter) ↔
      ("/f/new.png" ∈ c9wenv.figsAfter ∧ "/f/new.png" ∉ c9wenv.figsBefore)) ∧
    hasSeg ("EXIT CODE: ".data ++ intStr 2)
      (runPythonExec c9wenv.runRes c9wenv.figsBefore c9wenv.figsAfter).1 = true ∧
    hasSeg ("STDERR:\n".data ++ "Traceback: fail\n".data.take 3000)
      (runPythonExec c9wenv.runRes c9wenv.figsBefore c9wenv.figsAfter).1 = true := by
  have h := claim_C9_run_result (Json.obj [("path", Json.str "/w/a.py")]) c9wenv 2
    "out line\n".data "Traceback: fail\n".data
    (runPythonExec c9wenv.runRes c9wenv.figsBefore c9wenv.figsAfter).1
    (runPythonExec c9wenv.runRes c9wenv.figsBefore c9wenv.figsAfter).2
    rfl rfl
  exact ⟨h.1 "/f/new.png", h.2.1, h.2.2.2 (by decide) (by decide)⟩

/-! ## Claim theorems: the Call Extractor (C5, C7) -/

/-- The two-fenced-block response refuting C5 as universally stated. -/
def c5cex : String :=
  "```json\n\x7b\"name\": \"read_file\", \"arguments\": \x7b\"path\": \"a\"\x7d\x7d\n```\n```json\n\x7b\"name\": \"list_files\", \"arguments\": \x7b\"directory\": \"b\"\x7d\x7d\x0a```"

set_option maxRecDepth 40000 in
/-- C5 counterexample: a response with no native tool-call field containing
a fenced block that parses as `{"name": "read_file", "arguments": {...}}`
(so the claim's premise holds) for which the Extractor returns two calls,
not exactly one — pattern 1 collects every qualifying fenced block. -/
theorem claim_C5_counterexample :
    (fencedBlocks c5cex.data).headD [] =
      "\x7b\"name\": \"read_file\", \"arguments\": \x7b\"path\": \"a\"\x7d\x7d\n".data ∧
    parseJson (pyStrip ((fencedBlocks c5cex.data).headD [])) =
      some (Json.obj [("name", Json.str "read_file"),
        ("arguments", Json.obj [("path", Json.str "a")])]) ∧
    extractCalls c5cex.data [] = parseTextToolCalls c5cex.data ∧
    (parseTextToolCalls c5cex.data).length = 2 := by
  exact ⟨rfl, rfl, rfl, rfl⟩

theorem blockCalls1_single (b : List Char) (X : String) (A : List (String × Json))
    (hb : parseJson (pyStrip b) =
      some (Json.obj [("name", Json.str X), ("arguments", Json.obj A)])) :
    blockCalls1 b = [⟨Json.str X, Json.obj A⟩] := by
  unfold blockCalls1
  rw [hb]
  cases A with
  | nil => rfl
  | cons kv rest => rfl

theorem catLists_all_nil {α : Type} : ∀ (ls : List (List α)),
    (∀ l ∈ ls, l = []) → catLists ls = []
  | [], _ => rfl
  | a :: ls, h => by
    rw [catLists, h a (List.mem_cons_self a ls),
      catLists_all_nil ls (fun l hl => h l (List.mem_cons_of_mem a hl))]
    rfl

theorem pattern1Calls_single (content : List Char) (pre post : List (List Char))
    (b : List Char) (X : String) (A : List (String × Json))
    (hblocks : fencedBlocks content = pre ++ b :: post)
    (hb : parseJson (pyStrip b) =
      some (Json.obj [("name", Json.str X), ("arguments", Json.obj A)]))
    (hothers : ∀ b' ∈ pre ++ post, blockCalls1 b' = []) :
    pattern1Calls content = [⟨Json.str X, Json.obj A⟩] := by
  unfold pattern1Calls
  rw [hblocks]
  rw [List.map_append, List.map_cons]
  have hpre : catLists (pre.map blockCalls1) = [] :=
    catLists_all_nil _ (by
      intro l hl
      rcases List.mem_map.mp hl with ⟨b', hb', rfl⟩
      exact hothers b' (List.mem_append.mpr (Or.inl hb')))
  have hpost : catLists (post.map blockCalls1) = [] :=
    catLists_all_nil _ (by
      intro l hl
      rcases List.mem_map.mp hl with ⟨b', hb', rfl⟩
      exact hothers b' (List.mem_append.mpr (Or.inr hb')))
  have hcat : ∀ (u v : List (List PCall)), catLists (u ++ v) = catLists u ++ catLists v := by
    intro u v
    induction u with
    | nil => rfl
    | cons x u ih => rw [List.cons_append, catLists, catLists, ih, List.append_assoc]
  rw [hcat, hpre, catLists, blockCalls1_single b X A hb, hpost]
  rfl

/-- C5 (amended): for a response with no native tool-call field whose fenced
blocks contain exactly one block parsing as the JSON object
`{"name": X, "arguments": A}` with `A` an object (every other block yields
no pattern-1 call), the Extractor returns exactly one call, with name `X`
and arguments exactly `A` (round trip). As stated the claim fails only in
that a response holding several such blocks yields one call per block. -/
theorem claim_C5_fenced_roundtrip (content : List Char)
    (pre post : List (List Char)) (b : List Char) (X : String)
    (A : List (String × Json))
    (hblocks : fencedBlocks content = pre ++ b :: post)
    (hb : parseJson (pyStrip b) =
      some (Json.obj [("name", Json.str X), ("arguments", Json.obj A)]))
    (hothers : ∀ b' ∈ pre ++ post, blockCalls1 b' = []) :
    extractCalls content [] = [⟨Json.str X, Json.obj A⟩] := by
  have hp1 := pattern1Calls_single content pre post b X A hblocks hb hothers
  have hcne : content.isEmpty = false := by
    cases content with
    | nil =>
      rw [show fencedBlocks [] = [] from rfl] at hblocks
      cases pre <;> simp at hblocks
    | cons c t => rfl
  unfold extractCalls parseTextToolCalls
  rw [hp1]
  simp [hcne]

/-- Witness for the amended C5: a single fenced tool call amid prose. -/
theorem claim_C5_fenced_roundtrip_witness :
    extractCalls
        ("I will read it.\n```json\n\x7b\"name\": \"read_file\", \"arguments\": \x7b\"path\": \"/d/t.tsv\"\x7d\x7d\n```\nDone.").data
        [] =
      [⟨Json.str "read_file", Json.obj [("path", Json.str "/d/t.tsv")]⟩] := by
  refine claim_C5_fenced_roundtrip _ [] []
    "\x7b\"name\": \"read_file\", \"arguments\": \x7b\"path\": \"/d/t.tsv\"\x7d\x7d\n".data
    "read_file" [("path", Json.str "/d/t.tsv")] rfl rfl ?_
  intro b' hb'
  simp at hb'

theorem heur4_write (kvs : List (String × Json))
    (hn : hasKeyJ (Json.obj kvs) "name" = false)
    (hp : hasKeyJ (Json.obj kvs) "path" = true)
    (hc : hasKeyJ (Json.obj kvs) "content" = true) :
    heur4 (Json.obj kvs) = some ⟨Json.str "write_file", Json.obj kvs⟩ := by
  unfold heur4
  simp [hn, hp, hc]

theorem pattern4bScan_first : ∀ (pre : List (List Char)) (b : List Char)
    (post : List (List Char)) (c : PCall),
    (∀ b' ∈ pre, (parseJson (pyStrip b')).bind heur4 = none) →
    (parseJson (pyStrip b)).bind heur4 = some c →
    pattern4bScan (pre ++ b :: post) = [c]
  | [], b, post, c, _, hb => by
    rw [List.nil_append]
    unfold pattern4bScan
    rw [hb]
  | p :: pre, b, post, c, hpre, hb => by
    rw [List.cons_append]
    unfold pattern4bScan
    rw [hpre p (List.mem_cons_self p pre)]
    exact pattern4bScan_first pre b post c
      (fun b' h => hpre b' (List.mem_cons_of_mem p h)) hb

/-- C7: a response (no native tool-call field, nothing recovered by the
earlier stages) whose entire trimmed text — or, failing that, one of whose
fenced blocks — parses as a JSON object with no `name` key but with both a
`path` and a `content` key is interpreted as a `write_file` call whose
arguments are that very object. -/
theorem claim_C7_infer_write_file :
    (∀ (content : List Char) (kvs : List (String × Json)),
      parseJson (pyStrip content) = some (Json.obj kvs) →
      hasKeyJ (Json.obj kvs) "name" = false →
      hasKeyJ (Json.obj kvs) "path" = true →
      hasKeyJ (Json.obj kvs) "content" = true →
      pattern1Calls content = [] →
      pattern3Calls content = [] →
      extractCalls content [] = [⟨Json.str "write_file", Json.obj kvs⟩]) ∧
    (∀ (content : List Char) (pre post : List (List Char)) (b : List Char)
      (kvs : List (String × Json)),
      fencedBlocks content = pre ++ b :: post →
      (∀ b' ∈ pre, (parseJson (pyStrip b')).bind heur4 = none) →
      parseJson (pyStrip b) = some (Json.obj kvs) →
      hasKeyJ (Json.obj kvs) "name" = false →
      hasKeyJ (Json.obj kvs) "path" = true →
      hasKeyJ (Json.obj kvs) "content" = true →
      parseJson (pyStrip content) = none →
      pattern1Calls content = [] →
      pattern3Calls content = [] →
      extractCalls content [] = [⟨Json.str "write_file", Json.obj kvs⟩]) := by
  constructor
  · intro content kvs hp hn hpa hca hp1 hp3
    have hcne : content.isEmpty = false := by
      cases content with
      | nil =>
        rw [show pyStrip ([] : List Char) = [] from rfl,
          show parseJson ([] : List Char) = none from rfl] at hp
        cases hp
      | cons c t => rfl
    have hp2 : pattern2Calls content = [] := by
      unfold pattern2Calls
      rw [hp]
      simp [asItems, itemToCall2, hn]
    have hp4a : pattern4aCalls content =
        [⟨Json.str "write_file", Json.obj kvs⟩] := by
      unfold pattern4aCalls
      rw [hp, Option.some_bind, heur4_write kvs hn hpa hca]
    unfold extractCalls parseTextToolCalls
    simp [hcne, hp1, hp2, hp3, hp4a]
  · intro content pre post b kvs hblocks hpre hb hn hpa hca hwhole hp1 hp3
    have hcne : content.isEmpty = false := by
      cases content with
      | nil =>
        rw [show fencedBlocks [] = [] from rfl] at hblocks
        cases pre <;> simp at hblocks
      | cons c t => rfl
    have hp2 : pattern2Calls content = [] := by
      unfold pattern2Calls
      rw [hwhole]
    have hp4a : pattern4aCalls content = [] := by
      unfold pattern4aCalls
      rw [hwhole]
      rfl
    have hp4b : pattern4bCalls content =
        [⟨Json.str "write_file", Json.obj kvs⟩] := by
      unfold pattern4bCalls
      rw [hblocks]
      refine pattern4bScan_first pre b post _ hpre ?_
      rw [hb, Option.some_bind]
      exact heur4_write kvs hn hpa hca
    unfold extractCalls parseTextToolCalls
    simp [hcne, hp1, hp2, hp3, hp4a, hp4b]

set_option maxRecDepth 40000 in
/-- Witness for C7: a bare `path`/`content` object, and the same object
fenced amid prose, both inferred as `write_file`. -/
theorem claim_C7_infer_write_file_witness :
    extractCalls "\x7b\"path\": \"/w/analysis.py\", \"content\": \"x = 1\"\x7d".data [] =
      [⟨Json.str "write_file",
        Json.obj [("path", Json.str "/w/analysis.py"), ("content", Json.str "x = 1")]⟩] ∧
    extractCalls
        "Sure:\n```json\n\x7b\"path\": \"/w/analysis.py\", \"content\": \"x = 1\"\x7d\n```".data [] =
      [⟨Json.str "write_file",
        Json.obj [("path", Json.str "/w/analysis.py"), ("content", Json.str "x = 1")]⟩] := by
  constructor
  · exact claim_C7_infer_write_file.1 _
      [("path", Json.str "/w/analysis.py"), ("content", Json.str "x = 1")]
      rfl rfl rfl rfl rfl rfl
  · exact claim_C7_infer_write_file.2 _ [] []
      "\x7b\"path\": \"/w/analysis.py\", \"content\": \"x = 1\"\x7d\n".data
      [("path", Json.str "/w/analysis.py"), ("content", Json.str "x = 1")]
      rfl (by intro b' h; simp at h) rfl rfl rfl rfl rfl rfl rfl

/-! ## Claim theorems: the Agent Loop (C1, C4) -/

theorem jsonIsStr_run_ne_write (j : Json) (h : j = Json.str "run_python") :
    jsonIsStr j "write_file" = false := by
  rw [h]; rfl

/-- One execution of a lone `run_python` call that exits 0 with no new
figures while no figures exist at all, with the step budget not nearly
exhausted: the loop state gains the tool message and the silent-failure
corrective user message, the flag fields are updated, and no other field
changes. -/
theorem execCalls_run_silent (out : Nat → ToolOut)
    (ef : List (String × List String)) (figDir outDir : List Char)
    (step maxSteps : Nat) (tc : PCall) (k : Nat) (s : LoopSt)
    (hname : tc.name = Json.str "run_python")
    (hexit : hasSeg exitZeroTok (out k).result = true)
    (hnew : (out k).newFigs = [])
    (hread : (out k).readCode = none)
    (hfigs : s.allFigs = [])
    (hstep : step < maxSteps - 2) :
    execCalls out ef figDir outDir step maxSteps [tc] k s =
      ({ s with
          allFigs := [],
          success := true,
          runPyCount := s.runPyCount + 1,
          messages := s.messages ++
            [{ role := .tool, content := (out k).result.take 4000, toolName := tc.name },
             userMsg (silentFailMsg ef figDir outDir)] }, k + 1) := by
  simp only [execCalls, hname, jsonIsStr, hexit, hnew, hread, hfigs,
    jsonIsStr_run_ne_write tc.name hname, beq_self_eq_true, Bool.and_true,
    Bool.true_and, Bool.and_self, List.append_nil, List.isEmpty_nil,
    Bool.false_and, Bool.and_false, if_true, if_false, hstep, decide_eq_true_eq,
    if_pos, List.append_assoc, List.cons_append, List.nil_append]
  split
  next h => simp at h
  next h => simp [execCalls, List.append_assoc]

/-- Executing a lone `run_python` call that produced no new figures bumps
the `run_python` counter and leaves the figure set unchanged, whatever the
rest of the outcome was. -/
theorem execCalls_single_run_counts (out : Nat → ToolOut)
    (ef : List (String × List String)) (figDir outDir : List Char)
    (step maxSteps : Nat) (tc : PCall) (k : Nat) (s : LoopSt)
    (hname : tc.name = Json.str "run_python")
    (hnew : (out k).newFigs = []) :
    ((execCalls out ef figDir outDir step maxSteps [tc] k s).1.runPyCount =
      s.runPyCount + 1) ∧
    ((execCalls out ef figDir outDir step maxSteps [tc] k s).1.allFigs =
      s.allFigs) := by
  simp only [execCalls, hname, jsonIsStr, hnew,
    (show (("run_python" : String) == "write_file") = false from rfl),
    beq_self_eq_true, Bool.and_true, Bool.true_and, Bool.false_and,
    List.append_nil, if_true, if_false]
  repeat' split
  all_goals first
    | exact Bool.noConfusion (Eq.symm ‹false = true›)
    | simp [execCalls]

set_option maxHeartbeats 2000000 in
/-- Tool execution only ever appends to the figure set: once a figure
exists, it still exists after any sequence of tool calls. -/
theorem execCalls_allFigs_ne (out : Nat → ToolOut)
    (ef : List (String × List String)) (figDir outDir : List Char)
    (step maxSteps : Nat) :
    ∀ (calls : List PCall) (k : Nat) (s : LoopSt), s.allFigs ≠ [] →
      (execCalls out ef figDir outDir step maxSteps calls k s).1.allFigs ≠ []
  | [], _, _, h => h
  | tc :: rest, k, s, h => by
    simp only [execCalls]
    repeat' split
    all_goals
      apply execCalls_allFigs_ne out ef figDir outDir step maxSteps rest
    all_goals simp_all [List.append_eq_nil]

/-- The escalation test at the top of an iteration. -/
theorem loopGo_escalates (env : Nat → StepEnv) (fb : CodeExecutionResult)
    (ef : List (String × List String)) (figDir outDir : List Char)
    (maxSteps fuel step : Nat) (s : LoopSt)
    (h1 : s.allFigs = [])
    (h2 : (step = 6 ∧ s.runPyCount = 0) ∨ 3 ≤ s.runPyCount) :
    loopGo env fb ef figDir outDir maxSteps (fuel + 1) step s = ⟨fb, 1⟩ := by
  unfold loopGo
  rw [if_pos ⟨h1, h2⟩]

/-- One iteration that receives a non-empty native tool-call list proceeds
by executing the calls and recursing to the next step. -/
theorem loopGo_step_calls (env : Nat → StepEnv) (fb : CodeExecutionResult)
    (ef : List (String × List String)) (figDir outDir : List Char)
    (maxSteps fuel step : Nat) (s : LoopSt) (content : List Char)
    (native : List PCall)
    (hguard : ¬(s.allFigs = [] ∧ ((step = 6 ∧ s.runPyCount = 0) ∨ 3 ≤ s.runPyCount)))
    (hresp : (env step).response = .ok (content, native))
    (hne : native ≠ []) :
    loopGo env fb ef figDir outDir maxSteps (fuel + 1) step s =
      loopGo env fb ef figDir outDir maxSteps fuel (step + 1)
        (execCalls (env step).outcomes ef figDir outDir step maxSteps native 0
          { s with
            lastStep := step
            messages := s.messages ++
              [{ role := .assistant, content := content, toolCalls := native }] }).1 := by
  conv_lhs => unfold loopGo
  rw [if_neg hguard, hresp]
  have hext : extractCalls content native = native := by
    unfold extractCalls
    simp [hne]
  simp only [hext]
  rw [if_neg (by simpa using hne)]

/-- Once any figure exists, the loop never invokes the escalation
fallback. -/
theorem loopGo_no_fallback_of_figs (env : Nat → StepEnv)
    (fb : CodeExecutionResult) (ef : List (String × List String))
    (figDir outDir : List Char) (maxSteps : Nat) :
    ∀ (fuel step : Nat) (s : LoopSt), s.allFigs ≠ [] →
      (loopGo env fb ef figDir outDir maxSteps fuel step s).fallbackCalls = 0 := by
  intro fuel
  induction fuel with
  | zero => intro step s _; rfl
  | succ fuel ih =>
    intro step s h
    unfold loopGo
    rw [if_neg (by intro hc; exact h hc.1)]
    cases hresp : (env step).response with
    | error e => rfl
    | ok p =>
      obtain ⟨content, native⟩ := p
      simp only []
      by_cases hcalls : (extractCalls content native).isEmpty = true
      · rw [if_pos hcalls]
        by_cases hbr : ({ s with
            lastStep := step
            messages := s.messages ++
              [{ role := .assistant, content := content,
                 toolCalls := extractCalls content native }] } : LoopSt).allFigs = [] ∧
            ranPython ({ s with
              lastStep := step
              messages := s.messages ++
                [{ role := .assistant, content := content,
                   toolCalls := extractCalls content native }] } : LoopSt).messages
              = false ∧ step < maxSteps - 2
        · rw [if_pos hbr]
          exact ih _ _ h
        · rw [if_neg hbr]
      · rw [if_neg hcalls]
        exact ih _ _ (execCalls_allFigs_ne _ ef figDir outDir step maxSteps _ 0 _ h)

set_option maxHeartbeats 2000000 in
/-- C4: the Agent Loop escalates to the single-shot fallback exactly
under its progress test, and exactly once. (i) Whenever an iteration
begins with zero artifacts and either ≥ 3 `run_python` invocations
(auto-chained ones included, via the shared counter) or the step counter
at 6 with zero `run_python` invocations, the loop immediately invokes the
fallback exactly once and returns its result directly, with no further
iterations. (ii) Once any artifact exists the fallback is never invoked.
(iii) Scenario B: three steps that each execute one `run_python` call
producing no artifacts — whatever their exit status — lead the fourth
iteration to invoke the fallback exactly once and return its result. -/
theorem claim_C4_escalation :
    (∀ (env : Nat → StepEnv) (fb : CodeExecutionResult)
      (ef : List (String × List String)) (figDir outDir : List Char)
      (maxSteps fuel step : Nat) (s : LoopSt),
      s.allFigs = [] →
      ((step = 6 ∧ s.runPyCount = 0) ∨ 3 ≤ s.runPyCount) →
      loopGo env fb ef figDir outDir maxSteps (fuel + 1) step s =
        ⟨fb, 1⟩) ∧
    (∀ (env : Nat → StepEnv) (fb : CodeExecutionResult)
      (ef : List (String × List String)) (figDir outDir : List Char)
      (maxSteps fuel step : Nat) (s : LoopSt),
      s.allFigs ≠ [] →
      (loopGo env fb ef figDir outDir maxSteps fuel step s).fallbackCalls = 0) ∧
    (∀ (env : Nat → StepEnv) (fb : CodeExecutionResult)
      (ef : List (String × List String)) (figDir outDir : List Char)
      (m : Nat) (initMsgs : List Msg)
      (c1 c2 c3 : List Char) (tc1 tc2 tc3 : PCall),
      (env 1).response = .ok (c1, [tc1]) → tc1.name = Json.str "run_python" →
      ((env 1).outcomes 0).newFigs = [] →
      (env 2).response = .ok (c2, [tc2]) → tc2.name = Json.str "run_python" →
      ((env 2).outcomes 0).newFigs = [] →
      (env 3).response = .ok (c3, [tc3]) → tc3.name = Json.str "run_python" →
      ((env 3).outcomes 0).newFigs = [] →
      runCodingAgent env fb ef figDir outDir (m + 4) initMsgs = ⟨fb, 1⟩) := by
  refine ⟨?_, ?_, ?_⟩
  · intro env fb ef figDir outDir maxSteps fuel step s h1 h2
    exact loopGo_escalates env fb ef figDir outDir maxSteps fuel step s h1 h2
  · intro env fb ef figDir outDir maxSteps fuel step s h
    exact loopGo_no_fallback_of_figs env fb ef figDir outDir maxSteps fuel step s h
  · intro env fb ef figDir outDir m initMsgs c1 c2 c3 tc1 tc2 tc3
      hr1 hn1 ho1 hr2 hn2 ho2 hr3 hn3 ho3
    unfold runCodingAgent
    refine Eq.trans (loopGo_step_calls env fb ef figDir outDir (m + 4) (m + 3) 1 _
      c1 [tc1] ?_ hr1 (by simp)) ?_
    · rintro ⟨-, ⟨h6, -⟩ | h3⟩
      · exact absurd h6 (by decide)
      · simp at h3
    refine Eq.trans (loopGo_step_calls env fb ef figDir outDir (m + 4) (m + 2) 2 _
      c2 [tc2] ?_ hr2 (by simp)) ?_
    · rintro ⟨-, ⟨h6, -⟩ | h3⟩
      · exact absurd h6 (by decide)
      · rw [(execCalls_single_run_counts (env 1).outcomes ef figDir outDir 1 (m + 4)
          tc1 0 _ hn1 ho1).1] at h3
        simp at h3
    refine Eq.trans (loopGo_step_calls env fb ef figDir outDir (m + 4) (m + 1) 3 _
      c3 [tc3] ?_ hr3 (by simp)) ?_
    · rintro ⟨-, ⟨h6, -⟩ | h3⟩
      · exact absurd h6 (by decide)
      · rw [(execCalls_single_run_counts (env 2).outcomes ef figDir outDir 2 (m + 4)
          tc2 0 _ hn2 ho2).1] at h3
        have h3' : 3 ≤ (execCalls (env 1).outcomes ef figDir outDir 1 (m + 4)
            [tc1] 0 _).1.runPyCount + 1 := h3
        rw [(execCalls_single_run_counts (env 1).outcomes ef figDir outDir 1 (m + 4)
          tc1 0 _ hn1 ho1).1] at h3'
        simp at h3'
    refine loopGo_escalates env fb ef figDir outDir (m + 4) m 4 _ ?_ (Or.inr ?_)
    · rw [(execCalls_single_run_counts (env 3).outcomes ef figDir outDir 3 (m + 4)
        tc3 0 _ hn3 ho3).2]
      show ((execCalls (env 2).outcomes ef figDir outDir 2 (m + 4) [tc2] 0 _).1).allFigs = []
      rw [(execCalls_single_run_counts (env 2).outcomes ef figDir outDir 2 (m + 4)
        tc2 0 _ hn2 ho2).2]
      show ((execCalls (env 1).outcomes ef figDir outDir 1 (m + 4) [tc1] 0 _).1).allFigs = []
      rw [(execCalls_single_run_counts (env 1).outcomes ef figDir outDir 1 (m + 4)
        tc1 0 _ hn1 ho1).2]
    · rw [(execCalls_single_run_counts (env 3).outcomes ef figDir outDir 3 (m + 4)
        tc3 0 _ hn3 ho3).1]
      show 3 ≤ (execCalls (env 2).outcomes ef figDir outDir 2 (m + 4) [tc2] 0 _).1.runPyCount + 1
      rw [(execCalls_single_run_counts (env 2).outcomes ef figDir outDir 2 (m + 4)
        tc2 0 _ hn2 ho2).1]
      show 3 ≤ (execCalls (env 1).outcomes ef figDir outDir 1 (m + 4) [tc1] 0 _).1.runPyCount + 1 + 1
      rw [(execCalls_single_run_counts (env 1).outcomes ef figDir outDir 1 (m + 4)
        tc1 0 _ hn1 ho1).1]

/-- Concrete tool call for the loop witnesses. -/
def c4tc : PCall := ⟨Json.str "run_python", Json.obj [("path", Json.str "/w/analysis.py")]⟩

/-- Concrete step environment: every step answers with one `run_python`
call whose execution reports exit 0 and produces no figures. -/
def c4env : Nat → StepEnv :=
  fun _ => ⟨.ok ("running".data, [c4tc]), fun _ => ⟨"EXIT CODE: 0".data, [], none⟩⟩

/-- Concrete fallback result. -/
def c4fb : CodeExecutionResult :=
  ⟨true, [], [], "print(1)".data, ["/f/x.png"], 1, []⟩

/-- Witness for C4: three exit-0, zero-artifact `run_python` steps under
the concrete environment make the loop return the fallback's result with
exactly one fallback invocation. -/
theorem claim_C4_escalation_witness :
    runCodingAgent c4env c4fb [] "/f".data "/w".data (26 + 4) [] = ⟨c4fb, 1⟩ := by
  exact claim_C4_escalation.2.2 c4env c4fb [] "/f".data "/w".data 26 []
    "running".data "running".data "running".data c4tc c4tc c4tc
    rfl rfl rfl rfl rfl rfl rfl rfl rfl

set_option maxHeartbeats 1000000 in
/-- C1: an iteration in which the lone `run_python` call reports exit code
0 (`EXIT CODE: 0` in its result) yet produces no new figures, while no
figures exist session-wide, the escalation test does not hold on entry,
and the step budget is not nearly exhausted (`step < maxSteps - 2`), does
NOT terminate the loop: it equals the recursion into the next step — no
`Done(success)` return — with the conversation extended by the assistant
message, the tool result, and the corrective user message
`silentFailMsg`, which restates every exported input path verbatim and
demands a rewritten script via `write_file`. -/
theorem claim_C1_silent_failure_continues (env : Nat → StepEnv)
    (fb : CodeExecutionResult) (ef : List (String × List String))
    (figDir outDir : List Char) (maxSteps fuel step : Nat) (s : LoopSt)
    (content : List Char) (tc : PCall)
    (hresp : (env step).response = .ok (content, [tc]))
    (hname : tc.name = Json.str "run_python")
    (hexit : hasSeg exitZeroTok ((env step).outcomes 0).result = true)
    (hnew : ((env step).outcomes 0).newFigs = [])
    (hread : ((env step).outcomes 0).readCode = none)
    (hfigs : s.allFigs = [])
    (hcount : s.runPyCount < 3)
    (hnot6 : ¬(step = 6 ∧ s.runPyCount = 0))
    (hstep : step < maxSteps - 2) :
    loopGo env fb ef figDir outDir maxSteps (fuel + 1) step s =
      loopGo env fb ef figDir outDir maxSteps fuel (step + 1)
        { messages := s.messages ++
            [{ role := .assistant, content := content, toolCalls := [tc] },
             { role := .tool, content := ((env step).outcomes 0).result.take 4000,
               toolName := tc.name },
             userMsg (silentFailMsg ef figDir outDir)]
          allFigs := []
          finalCode := s.finalCode
          finalError := s.finalError
          success := true
          runPyCount := s.runPyCount + 1
          lastStep := step } ∧
    hasSeg "Call write_file NOW".data (silentFailMsg ef figDir outDir) = true ∧
    (∀ cat ps p, (cat, ps) ∈ ef → p ∈ ps →
      hasSeg p.data (silentFailMsg ef figDir outDir) = true) := by
  refine ⟨?_, ?_, ?_⟩
  · refine Eq.trans (loopGo_step_calls env fb ef figDir outDir maxSteps fuel step s
      content [tc] ?_ hresp (by simp)) ?_
    · rintro ⟨-, ⟨h6, h0⟩ | h3⟩
      · exact hnot6 ⟨h6, h0⟩
      · omega
    · rw [execCalls_run_silent (env step).outcomes ef figDir outDir step maxSteps
        tc 0 _ hname hexit hnew hread (by exact hfigs) hstep]
      simp [List.append_assoc]
  · rw [show silentFailMsg ef figDir outDir =
      (("The script ran with EXIT CODE: 0 but NO figures were saved to FIGURE_DIR.\n" ++
        "The script was likely empty or a stub.\n\n" ++
        "CORRECT FILE PATHS — use these EXACT paths in your script:\n").data ++
       fileRefs ef ++ "\n\nFIGURE_DIR = r".data ++ [sqc] ++ figDir ++ [sqc] ++
       "\nScript path: ".data ++ outDir ++ silentTail) from rfl]
    exact hasSeg_append_right _ (by decide)
  · intro cat ps p hcat hp
    rw [show silentFailMsg ef figDir outDir =
      (("The script ran with EXIT CODE: 0 but NO figures were saved to FIGURE_DIR.\n" ++
        "The script was likely empty or a stub.\n\n" ++
        "CORRECT FILE PATHS — use these EXACT paths in your script:\n").data ++
       fileRefs ef ++ "\n\nFIGURE_DIR = r".data ++ [sqc] ++ figDir ++ [sqc] ++
       "\nScript path: ".data ++ outDir ++ silentTail) from rfl]
    have hfr : hasSeg p.data
        (("The script ran with EXIT CODE: 0 but NO figures were saved to FIGURE_DIR.\n" ++
          "The script was likely empty or a stub.\n\n" ++
          "CORRECT FILE PATHS — use these EXACT paths in your script:\n").data ++
         fileRefs ef) = true :=
      hasSeg_append_right _ (hasSeg_fileRefs hcat hp)
    exact hasSeg_append_left _ _ (hasSeg_append_left _ _ (hasSeg_append_left _ _
      (hasSeg_append_left _ _ (hasSeg_append_left _ _ (hasSeg_append_left _ _
        (hasSeg_append_left _ _ hfr))))))

/-- Concrete pieces for the C1 witness. -/
def c1tc : PCall := ⟨Json.str "run_python", Json.obj [("path", Json.str "/w/analysis.py")]⟩

/-- Environment: one `run_python` call per step; exit 0, no figures. -/
def c1env : Nat → StepEnv :=
  fun _ => ⟨.ok ("running".data, [c1tc]), fun _ => ⟨"EXIT CODE: 0".data, [], none⟩⟩

/-- Fallback result placeholder for the C1 witness. -/
def c1fb : CodeExecutionResult := ⟨false, [], [], [], [], 0, []⟩

/-- Initial loop state for the C1 witness. -/
def c1s0 : LoopSt := ⟨[], [], [], [], false, 0, 0⟩

/-- Exported-file table for the C1 witness. -/
def c1ef : List (String × List String) := [("feature_table", ["/d/feature-table.tsv"])]

/-- Witness for C1 at a concrete loop state: the iteration recurses into
step 2 with the corrective message appended, and that message contains the
exact exported path and the `write_file` demand. -/
theorem claim_C1_silent_failure_continues_witness :
    (loopGo c1env c1fb c1ef "/f".data "/w".data 30 (0 + 1) 1 c1s0 =
      loopGo c1env c1fb c1ef "/f".data "/w".data 30 0 (1 + 1)
        { messages := c1s0.messages ++
            [{ role := .assistant, content := "running".data, toolCalls := [c1tc] },
             { role := .tool, content := ((c1env 1).outcomes 0).result.take 4000,
               toolName := c1tc.name },
             userMsg (silentFailMsg c1ef "/f".data "/w".data)]
          allFigs := []
          finalCode := c1s0.finalCode
          finalError := c1s0.finalError
          success := true
          runPyCount := c1s0.runPyCount + 1
          lastStep := 1 }) ∧
    hasSeg "Call write_file NOW".data (silentFailMsg c1ef "/f".data "/w".data) = true ∧
    hasSeg "/d/feature-table.tsv".data (silentFailMsg c1ef "/f".data "/w".data) = true := by
  have h := claim_C1_silent_failure_continues c1env c1fb c1ef "/f".data "/w".data
    30 0 1 c1s0 "running".data c1tc
    rfl rfl (by decide) rfl rfl rfl (by decide) (by decide) (by decide)
  exact ⟨h.1, h.2.1,
    h.2.2 "feature_table" ["/d/feature-table.tsv"] "/d/feature-table.tsv"
      (by simp [c1ef]) (by simp)⟩
